import Mathlib

/-!
# time_sync: the UDP time-exchange filter `f_time_sync`

A shallow embedding of `f_time_sync.hpp` / `f_time_sync.cpp`:

* the packet `s_tpkt`, its wire codec (`pack`, `unpack`) and the offset
  estimator `calc_delta`;
* the six-state machine (`sttrn`, `stwai`, `strcv`, `strep`, `stfix`, `stslp`),
  the drain pass `clearpkts`, and one tick `proc`;
* `init_run`.

Conventions.

* `unsigned int` is a `Nat` below `2^32`; `long long` is an `Int` in
  `[-2^63, 2^63)`, and every `long long` operation is followed by `wrap64`
  (two's complement wrap-around); a product of two `int` values is followed
  by `wrap32`.
* A host stores integers in its own byte order; the little-endian order is the
  one written out here.
* `sizeof(s_tpkt)` depends on the alignment of `long long` inside the struct:
  it is `44 + padding`, with `padding = 0` where `long long` is 4-byte aligned
  and `padding = 4` where it is 8-byte aligned.
* The clock (`get_time()`, `m_cur_time`), the macro `SEC`, the socket, the log
  `c_log` and the channel `ch_time_sync` live in headers outside these two
  files; they appear as inputs (`Env`, `Config`) and outputs (`Out`) of a tick.
-/

namespace TimeSync

/-! ## Bytes and machine integers -/

/-- One octet of a buffer (`char`). -/
abbrev Byte := Fin 256

/-- Low octet of a natural number. -/
def byteOf (n : Nat) : Byte := ⟨n % 256, Nat.mod_lt n (by decide)⟩

/-- The `w` low octets of `x`, least significant first: a `w`-byte store. -/
def leBytes : Nat → Nat → List Byte
  | 0, _ => []
  | w + 1, x => byteOf x :: leBytes w (x / 256)

/-- Value of a sequence of octets, least significant first: a load. -/
def leVal : List Byte → Nat
  | [] => 0
  | b :: bs => b.val + 256 * leVal bs

/-- Bit pattern of a `long long`. -/
def toU64 (x : Int) : Nat := (x % 2 ^ 64).toNat

/-- The `long long` with a given 64-bit pattern. -/
def ofU64 (u : Nat) : Int :=
  if u % 2 ^ 64 < 2 ^ 63 then ((u % 2 ^ 64 : Nat) : Int) else ((u % 2 ^ 64 : Nat) : Int) - 2 ^ 64

/-- Two's complement wrap-around of a 64-bit signed result. -/
def wrap64 (x : Int) : Int := ofU64 (toU64 x)

/-- Range of `long long`. -/
def inI64 (x : Int) : Prop := -2 ^ 63 ≤ x ∧ x < 2 ^ 63

instance (x : Int) : Decidable (inI64 x) := by unfold inI64; infer_instance

/-- Two's complement wrap-around of a 32-bit signed result (`int`). -/
def wrap32 (x : Int) : Int := (x + 2 ^ 31) % 2 ^ 32 - 2 ^ 31

/-- Range of `int`. -/
def inI32 (x : Int) : Prop := -2 ^ 31 ≤ x ∧ x < 2 ^ 31

instance (x : Int) : Decidable (inI32 x) := by unfold inI32; infer_instance

/-! ## The packet -/

/-- The packet exchanged between server and client (`struct s_tpkt`), with the
fields in their declaration order. -/
structure s_tpkt where
  id : Nat
  tc1 : Int
  ts1 : Int
  ts2 : Int
  tc2 : Int
  del : Int
deriving DecidableEq, Repr

namespace s_tpkt

/-- The field types: `id` is an `unsigned int`, the others are `long long`. -/
def valid (p : s_tpkt) : Prop :=
  p.id < 2 ^ 32 ∧ inI64 p.tc1 ∧ inI64 p.ts1 ∧ inI64 p.ts2 ∧ inI64 p.tc2 ∧ inI64 p.del

instance (p : s_tpkt) : Decidable p.valid := by unfold valid; infer_instance

/-- The estimator `((ts1 - tc1) - (tc2 - ts2)) / 2` of `calc_delta`; the
division of C++ truncates toward zero. -/
def calc_delta (p : s_tpkt) : Int :=
  wrap64 (Int.tdiv (wrap64 (wrap64 (p.ts1 - p.tc1) - wrap64 (p.tc2 - p.ts2))) 2)

/-- The 44 octets that `pack` stores, in the order it stores them. -/
def wire (p : s_tpkt) : List Byte :=
  leBytes 4 p.id ++ (leBytes 8 (toU64 p.tc1) ++ (leBytes 8 (toU64 p.ts1) ++
    (leBytes 8 (toU64 p.tc2) ++ (leBytes 8 (toU64 p.ts2) ++ leBytes 8 (toU64 p.del)))))

/-- The function `pack(buf)`: the six stores at the front of `buf`; what lies
behind them in `buf` is left as it is. -/
def pack (p : s_tpkt) (buf : List Byte) : List Byte :=
  p.wire ++ buf.drop 44

/-- The function `unpack(buf)`: six loads, the pointer advancing by the size of
each field. -/
def unpack (buf : List Byte) : s_tpkt :=
  let id := leVal (buf.take 4)
  let buf := buf.drop 4
  let tc1 := ofU64 (leVal (buf.take 8))
  let buf := buf.drop 8
  let ts1 := ofU64 (leVal (buf.take 8))
  let buf := buf.drop 8
  let tc2 := ofU64 (leVal (buf.take 8))
  let buf := buf.drop 8
  let ts2 := ofU64 (leVal (buf.take 8))
  let buf := buf.drop 8
  let del := ofU64 (leVal (buf.take 8))
  { id := id, tc1 := tc1, ts1 := ts1, ts2 := ts2, tc2 := tc2, del := del }

end s_tpkt

/-! ## Configuration, state, inputs and outputs of a tick -/

/-- The mode of the filter (`enum e_mode`). -/
inductive e_mode where
  | TRN | RCV | WAI | REP | FIX | SLP
deriving DecidableEq, Repr

/-- A socket address (`sockaddr_in` together with its length). -/
abbrev Addr := Nat

/-- A record of the log: a time and the delta stored with it. -/
abbrev Rec := Int × Int

/-- The parameters of the filter, fixed before `init_run`, and the constants of
the build. -/
structure Config where
  /-- The padding of the struct: `sizeof(s_tpkt) = 44 + padding`. -/
  padding : Nat
  /-- Clock units in a second: the macro `SEC`, an `int` constant of a header
  outside these sources. -/
  SEC : Int
  /-- Parameter `verb`. -/
  m_verb : Bool
  /-- Parameter `host_svr`; empty for a server. -/
  m_host_dst : String
  /-- The address `m_sock_addr_snd` made of `host_svr` and `port_svr`. -/
  m_sock_addr_snd : Addr
  /-- Parameter `Tadj`, in seconds. -/
  m_adjust_intvl : Int
  /-- Parameter `MaxWaitCount`. -/
  m_max_rcv_wait_count : Int
  /-- Parameter `replay`. -/
  replay : Bool
  /-- Whether the channel `m_ch_time_sync` is connected (not `nullptr`). -/
  has_ch : Bool
deriving Repr

/-- The value of `sizeof(s_tpkt)`: the size of `m_trbuf` and of every datagram
sent. -/
def sizeofTpkt (cfg : Config) : Nat := 44 + cfg.padding

/-- The product `(long long) m_adjust_intvl * SEC` of `stfix`: the cast comes
first, so the product is formed in 64 bits. -/
def adjTicks (cfg : Config) : Int := wrap64 (cfg.m_adjust_intvl * cfg.SEC)

/-- The product `m_adjust_intvl * SEC` of `clearpkts`, written without a cast:
both factors are `int`, so the product is formed in 32 bits and only then
widened to `long long`. -/
def adjTicksInt (cfg : Config) : Int := wrap32 (cfg.m_adjust_intvl * cfg.SEC)

/-- Modelled from the spec: the class `c_log` is declared outside these
sources. The replay store holds `(timestamp, offset)` records: those still to
be read, and those written. -/
structure c_log where
  records : List Rec
  written : List Rec
deriving DecidableEq, Repr

/-- The fields of the filter that a tick reads and writes. -/
structure State where
  mode : e_mode
  m_trpkt : s_tpkt
  m_trbuf : List Byte
  m_sock_addr_rep : Addr
  m_tnext_adj : Int
  m_rcv_wait_count : Int
  log : c_log
deriving DecidableEq, Repr

/-- What one `select` on the socket, and the `recvfrom` after it, report. -/
inductive SockEvent where
  /-- Readable, and `recvfrom` hands over a datagram and its source. -/
  | recv (d : List Byte) (src : Addr)
  /-- Readable, but `recvfrom` returns `SOCKET_ERROR` and stores nothing. -/
  | recvFail
  /-- The socket is in the exception set only. -/
  | except
  /-- A positive count with the socket in neither set. -/
  | unknown
  /-- The `select` returns no descriptor (its count is not positive). -/
  | timeout
deriving DecidableEq, Repr

/-- What the surroundings supply during one tick. -/
structure Env where
  /-- Modelled from the spec: `get_time()` is declared outside these sources;
  it is the `now` of the tick, the same at every call within the tick. -/
  time : Int
  /-- Modelled from the spec: the field `m_cur_time` of the base class,
  declared outside these sources: the current time as the filter holds it, the
  `now` of the busy-rejection branch of `stwai`. It is kept apart from
  `get_time()`, since nothing in these sources ties the two. -/
  cur_time : Int
  /-- The two values of `rand()`, in the order they are combined. -/
  rand1 : Nat
  rand2 : Nat
  /-- The results of the successive `select` calls; after the last one every
  further `select` times out. -/
  events : List SockEvent
  /-- Whether `log.read` can read at all. -/
  log_read_ok : Bool
  /-- Whether the `sendto` calls of the tick succeed (do not return
  `SOCKET_ERROR`). No handler reads it: the return value of `sendto` is
  dropped at every call. -/
  sendto_ok : Bool := true
deriving Repr

/-- What a tick hands to the outside: the `sendto` calls (datagram and
destination) and the `set_time_delta` calls, each in the order made. -/
structure Out where
  sent : List (List Byte × Addr)
  delta : List Rec
deriving DecidableEq, Repr

/-- Return value, fields after the call and effects of a handler. -/
structure Res where
  ok : Bool
  st : State
  out : Out
deriving DecidableEq, Repr

/-- No effect on the outside. -/
def Out.none : Out := { sent := [], delta := [] }

/-- Effects in sequence. -/
def Out.append (a b : Out) : Out := { sent := a.sent ++ b.sent, delta := a.delta ++ b.delta }

/-- The call `recvfrom(m_sock, m_trbuf, sizeof(s_tpkt), ...)`: the datagram, cut
at `sizeof(s_tpkt)`, overwrites the front of the buffer. -/
def recvfrom (cfg : Config) (buf : List Byte) (d : List Byte) : List Byte :=
  d.take (sizeofTpkt cfg) ++ buf.drop (d.take (sizeofTpkt cfg)).length

/-- The datagram of `sendto(m_sock, m_trbuf, sizeof(s_tpkt), ...)`. -/
def sendto (cfg : Config) (buf : List Byte) (dst : Addr) : List Byte × Addr :=
  (buf.take (sizeofTpkt cfg), dst)

/-- The expression `((unsigned int) rand() << 16) | (unsigned int) rand()`. -/
def rand_id (env : Env) : Nat :=
  (((env.rand1 % 2 ^ 32) * 2 ^ 16) % 2 ^ 32) ||| (env.rand2 % 2 ^ 32)

/-- Modelled from the spec: `c_log::read` is declared outside these sources;
`read() -> (timestamp, bytes) | endOfData | failure`. It fails at the end of
the records or when reading is not possible, otherwise hands over the next
record. -/
def c_log.read (l : c_log) (readable : Bool) : Option (Rec × c_log) :=
  match readable, l.records with
  | true, r :: rs => some (r, { l with records := rs })
  | _, _ => none

/-- Modelled from the spec: `c_log::write` is declared outside these sources;
`write(timestamp, bytes)` appends a record. -/
def c_log.write (l : c_log) (r : Rec) : c_log := { l with written := l.written ++ [r] }

/-! ## The handlers -/

/-- State TRN (`sttrn`): clear the packet, draw an id, stamp `tc1`, send. -/
def sttrn (cfg : Config) (env : Env) (s : State) : Res :=
  let pkt : s_tpkt :=
    { id := rand_id env, tc1 := env.time, ts1 := 0, ts2 := 0, tc2 := 0, del := 0 }
  let buf := pkt.pack s.m_trbuf
  { ok := true
    st := { s with m_trpkt := pkt, m_trbuf := buf, m_rcv_wait_count := 0, mode := e_mode.WAI }
    out := { sent := [sendto cfg buf cfg.m_sock_addr_snd], delta := [] } }

/-- The body of `stwai` after a datagram was unpacked into `rcvpkt` with a
matching id: the two branches that leave the loop. -/
def stwai_match (env : Env) (count : Nat) (rcvpkt : s_tpkt) (s : State) : State :=
  if rcvpkt.del ≠ 0 then
    { s with m_tnext_adj := wrap64 (env.cur_time + rcvpkt.del), mode := e_mode.SLP }
  else
    { s with
      m_trpkt := { s.m_trpkt with ts1 := rcvpkt.ts1, ts2 := rcvpkt.ts2, tc2 := env.time }
      mode := if count = 0 then e_mode.FIX else e_mode.TRN }

/-- The branch of `stwai` taken when the `select` times out. -/
def stwai_timeout (cfg : Config) (count : Nat) (s : State) : State :=
  if s.m_rcv_wait_count < cfg.m_max_rcv_wait_count ∧ count = 0 then
    { s with mode := e_mode.WAI, m_rcv_wait_count := s.m_rcv_wait_count + 1 }
  else
    { s with mode := e_mode.TRN }

/-- The loop of `stwai`; `count` is the error counter. -/
def stwai_loop (cfg : Config) (env : Env) : List SockEvent → Nat → State → Res
  | [], count, s => { ok := true, st := stwai_timeout cfg count s, out := Out.none }
  | SockEvent.timeout :: _, count, s =>
    { ok := true, st := stwai_timeout cfg count s, out := Out.none }
  | SockEvent.except :: _, _, s => { ok := false, st := s, out := Out.none }
  | SockEvent.unknown :: _, _, s => { ok := false, st := s, out := Out.none }
  | SockEvent.recv d src :: rest, count, s =>
    let s1 := { s with m_trbuf := recvfrom cfg s.m_trbuf d, m_sock_addr_rep := src }
    let rcvpkt := s_tpkt.unpack s1.m_trbuf
    if rcvpkt.id = s1.m_trpkt.id then
      { ok := true, st := stwai_match env count rcvpkt s1, out := Out.none }
    else
      stwai_loop cfg env rest (count + 1) s1
  | SockEvent.recvFail :: rest, count, s =>
    let rcvpkt := s_tpkt.unpack s.m_trbuf
    if rcvpkt.id = s.m_trpkt.id then
      { ok := true, st := stwai_match env count rcvpkt s, out := Out.none }
    else
      stwai_loop cfg env rest (count + 1) s

/-- State WAI (`stwai`). -/
def stwai (cfg : Config) (env : Env) (s : State) : Res :=
  stwai_loop cfg env env.events 0 s

/-- The loop of `clearpkts`; `del` is the wait time of the next rejection. -/
def clearpkts_loop (cfg : Config) : List SockEvent → Int → State → Res
  | [], _, s => { ok := true, st := s, out := Out.none }
  | SockEvent.timeout :: _, _, s => { ok := true, st := s, out := Out.none }
  | SockEvent.except :: _, _, s => { ok := false, st := s, out := Out.none }
  | SockEvent.unknown :: _, _, s => { ok := false, st := s, out := Out.none }
  | SockEvent.recvFail :: _, _, s => { ok := false, st := s, out := Out.none }
  | SockEvent.recv d src :: rest, del, s =>
    let buf := recvfrom cfg s.m_trbuf d
    let rcvpkt := { s_tpkt.unpack buf with del := del }
    let buf := rcvpkt.pack buf
    let r := clearpkts_loop cfg rest (wrap64 (del + adjTicksInt cfg)) { s with m_trbuf := buf }
    { r with out := Out.append { sent := [sendto cfg buf src], delta := [] } r.out }

/-- The drain pass (`clearpkts`), run on the results of the `select` calls that
are still to come in this tick. -/
def clearpkts (cfg : Config) (evs : List SockEvent) (s : State) : Res :=
  clearpkts_loop cfg evs (adjTicksInt cfg) s

/-- State RCV (`strcv`). -/
def strcv (cfg : Config) (env : Env) (s : State) : Res :=
  match env.events with
  | [] => clearpkts cfg [] s
  | SockEvent.timeout :: rest => clearpkts cfg rest s
  | SockEvent.except :: _ => { ok := false, st := s, out := Out.none }
  | SockEvent.unknown :: _ => { ok := false, st := s, out := Out.none }
  | SockEvent.recv d src :: rest =>
    let buf := recvfrom cfg s.m_trbuf d
    clearpkts cfg rest
      { s with
        m_trbuf := buf, m_sock_addr_rep := src
        m_trpkt := { s_tpkt.unpack buf with ts1 := env.time }
        mode := e_mode.REP }
  | SockEvent.recvFail :: rest =>
    clearpkts cfg rest
      { s with
        m_trpkt := { s_tpkt.unpack s.m_trbuf with ts1 := env.time }
        mode := e_mode.REP }

/-- State REP (`strep`). -/
def strep (cfg : Config) (env : Env) (s : State) : Res :=
  let pkt := { s.m_trpkt with ts2 := env.time, del := 0 }
  let buf := pkt.pack s.m_trbuf
  let r := clearpkts cfg env.events
    { s with m_trpkt := pkt, m_trbuf := buf, mode := e_mode.RCV }
  { r with out := Out.append { sent := [sendto cfg buf s.m_sock_addr_rep], delta := [] } r.out }

/-- State FIX (`stfix`). -/
def stfix (cfg : Config) (env : Env) (s : State) : Res :=
  let delta := s.m_trpkt.calc_delta
  let tnext := wrap64 (env.time + adjTicks cfg)
  if cfg.has_ch then
    { ok := true
      st := { s with
        log := s.log.write (env.time, delta), m_tnext_adj := tnext, mode := e_mode.SLP }
      out := { sent := [], delta := [(env.time, delta)] } }
  else
    { ok := true
      st := { s with m_tnext_adj := tnext, mode := e_mode.SLP }
      out := Out.none }

/-- State SLP (`stslp`). -/
def stslp (env : Env) (s : State) : Res :=
  if s.m_tnext_adj < env.time then
    { ok := true, st := { s with mode := e_mode.TRN }, out := Out.none }
  else
    { ok := true, st := s, out := Out.none }

/-- One tick (`proc`). -/
def proc (cfg : Config) (env : Env) (s : State) : Res :=
  if cfg.replay ∧ cfg.has_ch then
    match s.log.read env.log_read_ok with
    | none => { ok := false, st := s, out := Out.none }
    | some ((t, delta), l) =>
      { ok := true, st := { s with log := l }, out := { sent := [], delta := [(t, delta)] } }
  else
    match s.mode with
    | e_mode.TRN => sttrn cfg env s
    | e_mode.WAI => stwai cfg env s
    | e_mode.RCV => strcv cfg env s
    | e_mode.REP => strep cfg env s
    | e_mode.FIX => stfix cfg env s
    | e_mode.SLP => stslp env s

/-- Successive ticks, one per element of `envs`, for as long as `proc` returns
true: the caller stops at the first failure. The result holds the conjunction
of the return values, the fields at the end and all effects in order. -/
def run (cfg : Config) : List Env → State → Res
  | [], s => { ok := true, st := s, out := Out.none }
  | env :: envs, s =>
    let r := proc cfg env s
    if r.ok then
      let r2 := run cfg envs r.st
      { r2 with out := Out.append r.out r2.out }
    else r

/-- What `init_run` gets from the system: whether the log opens, whether the
socket becomes non-blocking, whether `bind` works, and the address that
`set_sockaddr_addr` leaves in `m_sock_addr_rep`. -/
structure InitEnv where
  log_init_ok : Bool
  sock_nb_ok : Bool
  bind_ok : Bool
  addr_rep : Addr
deriving Repr

/-- The function `init_run`: `none` when it returns false. -/
def init_run (cfg : Config) (ie : InitEnv) (s : State) : Option State :=
  if cfg.replay then
    if !cfg.has_ch then none
    else if !ie.log_init_ok then none
    else some s
  else
    if (cfg.m_host_dst ≠ "" ∧ cfg.has_ch) ∧ !ie.log_init_ok then none
    else if !ie.sock_nb_ok then none
    else if !ie.bind_ok then none
    else
      some { s with
        m_sock_addr_rep := ie.addr_rep
        mode := if cfg.m_host_dst = "" then e_mode.RCV else e_mode.TRN }

/-! ## A sample requester and responder, used in the examples -/

/-- A client of the server at address 1, with a channel, `Tadj = 10` and
`MaxWaitCount = 2`, on a host where the struct has 4 octets of padding. -/
def sampleClient : Config :=
  { padding := 4, SEC := 10000000, m_verb := false, m_host_dst := "192.168.0.2"
    m_sock_addr_snd := 1, m_adjust_intvl := 10, m_max_rcv_wait_count := 2
    replay := false, has_ch := true }

/-- A server (no destination host), `Tadj = 10`, without padding in the struct. -/
def sampleServer : Config :=
  { padding := 0, SEC := 10000000, m_verb := false, m_host_dst := ""
    m_sock_addr_snd := 0, m_adjust_intvl := 10, m_max_rcv_wait_count := 1000
    replay := false, has_ch := false }

/-- The fields of a filter with a cleared packet and buffer, in a given mode. -/
def sampleState (cfg : Config) (m : e_mode) : State :=
  { mode := m, m_trpkt := s_tpkt.mk 0 0 0 0 0 0
    m_trbuf := List.replicate (sizeofTpkt cfg) 0
    m_sock_addr_rep := 0, m_tnext_adj := 0, m_rcv_wait_count := 0
    log := { records := [], written := [] } }

/-- A tick at a given time with given results of `select`. -/
def sampleEnv (t : Int) (evs : List SockEvent) : Env :=
  { time := t, cur_time := t, rand1 := 1, rand2 := 2, events := evs, log_read_ok := true }

/-- The request datagram of the sample client: id `65538`, `tc1 = 100`. -/
def sampleRequest : List Byte :=
  (s_tpkt.mk 65538 100 0 0 0 0).wire ++ List.replicate 4 0

/-- The reply datagram of the sample server: `ts1 = 150`, `ts2 = 160`. -/
def sampleReply : List Byte :=
  (s_tpkt.mk 65538 100 150 160 0 0).wire

/-- Two requests queued at the server, from the addresses 5 and 6. -/
def sampleQueue : List (List Byte × Addr) :=
  [((s_tpkt.mk 11 100 0 0 0 0).wire, 5), ((s_tpkt.mk 22 101 0 0 0 0).wire, 6)]

/-- The sample client waiting for the reply to its request with id `65538`,
after `c` timeouts. -/
def sampleWaiting (c : Int) : State :=
  { sampleState sampleClient e_mode.WAI with
    m_trpkt := s_tpkt.mk 65538 100 0 0 0 0, m_rcv_wait_count := c }

/-- A reply to some other request: id `7`. -/
def sampleForeign : List Byte :=
  (s_tpkt.mk 7 90 95 96 0 0).wire

/-- A filter in replay mode with a channel attached. -/
def sampleReplay : Config :=
  { sampleClient with replay := true }

/-- The fields of a filter whose log holds three records. -/
def sampleRecorded : State :=
  { sampleState sampleReplay e_mode.WAI with
    log := { records := [(230, -5), (330, -4), (430, -6)], written := [] } }

/-- The sample client asleep until the clock passes 100. -/
def sampleSleeping : State :=
  { sampleState sampleClient e_mode.SLP with m_tnext_adj := 100 }

/-- What `init_run` meets on a host where everything works. -/
def sampleInit : InitEnv :=
  { log_init_ok := true, sock_nb_ok := true, bind_ok := true, addr_rep := 0 }

/-- A busy rejection of the request with id `65538`: `del` of 30 seconds. -/
def sampleBusy : List Byte :=
  (s_tpkt.mk 65538 100 0 0 0 300000000).wire

/-- The sample client with the reply to its request taken in: about to fix. -/
def sampleFixing : State :=
  { sampleState sampleClient e_mode.FIX with m_trpkt := s_tpkt.mk 65538 100 150 160 220 0 }

/-- The two queued requests as the results of successive `select` calls. -/
def sampleQueued : List SockEvent :=
  sampleQueue.map (fun x => SockEvent.recv x.1 x.2)

/-- A tick at time 100 in which every `sendto` returns `SOCKET_ERROR`. -/
def sampleSendFails : Env :=
  { sampleEnv 100 [] with sendto_ok := false }

/-- The sample server with `Tadj = 215`: an interval of `2150000000` clock
units. -/
def sampleServer215 : Config :=
  { sampleServer with m_adjust_intvl := 215 }

/-! ## Lemmas on the codec -/

theorem leBytes_length (w x : Nat) : (leBytes w x).length = w := by
  induction w generalizing x with
  | zero => rfl
  | succ w ih => simp [leBytes, ih]

theorem leVal_leBytes (w x : Nat) : leVal (leBytes w x) = x % 256 ^ w := by
  induction w generalizing x with
  | zero => simp [leBytes, leVal, Nat.mod_one]
  | succ w ih =>
    simp only [leBytes, leVal, byteOf, ih]
    rw [pow_succ, Nat.mul_comm (256 ^ w) 256, Nat.mod_mul]

theorem leVal_lt (l : List Byte) : leVal l < 256 ^ l.length := by
  induction l with
  | nil => simp [leVal]
  | cons b bs ih =>
    have hb := b.isLt
    simp only [leVal, List.length_cons, pow_succ]
    omega

theorem ofU64_toU64 (x : Int) (h : inI64 x) : ofU64 (toU64 x) = x := by
  unfold inI64 at h
  unfold ofU64 toU64
  have h1 : (0 : Int) ≤ x % 2 ^ 64 := Int.emod_nonneg _ (by norm_num)
  have h2 : x % 2 ^ 64 < 2 ^ 64 := Int.emod_lt_of_pos _ (by norm_num)
  have h3 : (((x % 2 ^ 64).toNat % 2 ^ 64 : Nat) : Int) = x % 2 ^ 64 := by
    have : (x % 2 ^ 64).toNat < 2 ^ 64 := by omega
    rw [Nat.mod_eq_of_lt this]
    exact Int.toNat_of_nonneg h1
  have h4 : (x % 2 ^ 64).toNat % 2 ^ 64 < 2 ^ 63 ↔ x % 2 ^ 64 < 2 ^ 63 := by
    omega
  split_ifs with hc
  · rw [h3]; omega
  · rw [h3]; omega

theorem wrap64_of_inI64 (x : Int) (h : inI64 x) : wrap64 x = x :=
  ofU64_toU64 x h

theorem toU64_lt (x : Int) : toU64 x < 2 ^ 64 := by
  unfold toU64
  have h1 : (0 : Int) ≤ x % 2 ^ 64 := Int.emod_nonneg _ (by norm_num)
  have h2 : x % 2 ^ 64 < 2 ^ 64 := Int.emod_lt_of_pos _ (by norm_num)
  omega

theorem ofU64_inI64 (u : Nat) : inI64 (ofU64 u) := by
  unfold inI64 ofU64
  have : u % 2 ^ 64 < 2 ^ 64 := Nat.mod_lt _ (by norm_num)
  split_ifs with hc <;> omega

theorem load_store_u32 (x : Nat) (h : x < 2 ^ 32) : leVal (leBytes 4 x) = x := by
  rw [leVal_leBytes]
  exact Nat.mod_eq_of_lt (by norm_num at h ⊢; exact h)

theorem load_store_i64 (x : Int) (h : inI64 x) : ofU64 (leVal (leBytes 8 (toU64 x))) = x := by
  rw [leVal_leBytes]
  have : toU64 x % 256 ^ 8 = toU64 x :=
    Nat.mod_eq_of_lt (by have := toU64_lt x; norm_num at this ⊢; exact this)
  rw [this]
  exact ofU64_toU64 x h

theorem take_append_len {α : Type} (n : Nat) (l r : List α) (h : l.length = n) :
    (l ++ r).take n = l := by
  subst h; simp

theorem drop_append_len {α : Type} (n : Nat) (l r : List α) (h : l.length = n) :
    (l ++ r).drop n = r := by
  subst h; simp

theorem wire_length (p : s_tpkt) : p.wire.length = 44 := by
  simp [s_tpkt.wire, leBytes_length]

/-- Decoding reads only the first 44 octets: whatever follows the stored fields
does not matter. -/
theorem unpack_wire_append (p : s_tpkt) (h : p.valid) (rest : List Byte) :
    s_tpkt.unpack (p.wire ++ rest) = p := by
  obtain ⟨h0, h1, h2, h3, h4, h5⟩ := h
  cases p with
  | mk id tc1 ts1 ts2 tc2 del =>
    simp only at h0 h1 h2 h3 h4 h5
    simp only [s_tpkt.unpack, s_tpkt.wire, List.append_assoc]
    simp only [take_append_len 4 _ _ (leBytes_length 4 _),
      drop_append_len 4 _ _ (leBytes_length 4 _),
      take_append_len 8 _ _ (leBytes_length 8 _),
      drop_append_len 8 _ _ (leBytes_length 8 _),
      load_store_u32 _ h0, load_store_i64 _ h1, load_store_i64 _ h2,
      load_store_i64 _ h3, load_store_i64 _ h4, load_store_i64 _ h5]

/-! ## Codec claims -/

/-- C1. Codec round trip: for every packet (a 32-bit unsigned `id`, 64-bit
signed `tc1`, `ts1`, `tc2`, `ts2`, `del`) and every buffer, `unpack` applied
to the buffer written by `pack` gives back the packet, field by field. -/
theorem pack_unpack_roundtrip (p : s_tpkt) (buf : List Byte) (h : p.valid) :
    s_tpkt.unpack (p.pack buf) = p ∧
    (s_tpkt.unpack (p.pack buf)).id = p.id ∧
    (s_tpkt.unpack (p.pack buf)).tc1 = p.tc1 ∧
    (s_tpkt.unpack (p.pack buf)).ts1 = p.ts1 ∧
    (s_tpkt.unpack (p.pack buf)).tc2 = p.tc2 ∧
    (s_tpkt.unpack (p.pack buf)).ts2 = p.ts2 ∧
    (s_tpkt.unpack (p.pack buf)).del = p.del := by
  have e : s_tpkt.unpack (p.pack buf) = p := unpack_wire_append p h _
  rw [e]
  exact ⟨rfl, rfl, rfl, rfl, rfl, rfl, rfl⟩

/-- Witness of C1 at a packet with a full-range id and negative fields. -/
theorem pack_unpack_roundtrip_witness :
    (s_tpkt.mk 4294967295 (-1) 150 160 (-9223372036854775808) 9223372036854775807).valid ∧
    s_tpkt.unpack ((s_tpkt.mk 4294967295 (-1) 150 160 (-9223372036854775808)
        9223372036854775807).pack []) =
      s_tpkt.mk 4294967295 (-1) 150 160 (-9223372036854775808) 9223372036854775807 :=
  ⟨by decide, (pack_unpack_roundtrip _ [] (by decide)).1⟩

/-! ## The offset estimator -/

theorem tdiv_two_nonneg (n : Int) (h : 0 ≤ n) : Int.tdiv n 2 = n / 2 :=
  Int.tdiv_eq_ediv h (by norm_num)

theorem tdiv_two_neg (n : Int) (h : n < 0) : Int.tdiv n 2 = -((-n) / 2) := by
  have e : n = -(-n) := by omega
  conv_lhs => rw [e]
  rw [Int.neg_tdiv, Int.tdiv_eq_ediv (by omega) (by norm_num)]

theorem tdiv_two_inI64 (n : Int) (h : inI64 n) : inI64 (Int.tdiv n 2) := by
  unfold inI64 at *
  rcases Int.lt_or_le n 0 with hn | hn
  · rw [tdiv_two_neg n hn]; omega
  · rw [tdiv_two_nonneg n hn]; omega

theorem calc_delta_eq (p : s_tpkt) (h1 : inI64 (p.ts1 - p.tc1)) (h2 : inI64 (p.tc2 - p.ts2))
    (h3 : inI64 ((p.ts1 - p.tc1) - (p.tc2 - p.ts2))) :
    p.calc_delta = Int.tdiv ((p.ts1 - p.tc1) - (p.tc2 - p.ts2)) 2 := by
  unfold s_tpkt.calc_delta
  rw [wrap64_of_inI64 _ h1, wrap64_of_inI64 _ h2, wrap64_of_inI64 _ h3,
    wrap64_of_inI64 _ (tdiv_two_inI64 _ h3)]

/-- C2. Offset estimator: when the two differences and their difference fit in
64 bits, `calc_delta` returns `((ts1 - tc1) - (tc2 - ts2)) / 2` with the
quotient truncated toward zero: it is the floor of the half for a numerator
that is not negative and minus the floor of the half of the opposite for a
negative one (so a numerator of -3 gives -1); and `tc1 = 100`, `ts1 = 150`,
`ts2 = 160`, `tc2 = 220` gives -5. -/
theorem calc_delta_truncates (p : s_tpkt) (h1 : inI64 (p.ts1 - p.tc1))
    (h2 : inI64 (p.tc2 - p.ts2)) (h3 : inI64 ((p.ts1 - p.tc1) - (p.tc2 - p.ts2))) :
    p.calc_delta = Int.tdiv ((p.ts1 - p.tc1) - (p.tc2 - p.ts2)) 2 ∧
    (0 ≤ (p.ts1 - p.tc1) - (p.tc2 - p.ts2) →
      p.calc_delta = ((p.ts1 - p.tc1) - (p.tc2 - p.ts2)) / 2) ∧
    ((p.ts1 - p.tc1) - (p.tc2 - p.ts2) < 0 →
      p.calc_delta = -((-((p.ts1 - p.tc1) - (p.tc2 - p.ts2))) / 2)) ∧
    ((p.ts1 - p.tc1) - (p.tc2 - p.ts2) = -3 → p.calc_delta = -1) ∧
    (s_tpkt.mk 0 100 150 160 220 0).calc_delta = -5 := by
  have e := calc_delta_eq p h1 h2 h3
  refine ⟨e, ?_, ?_, ?_, by decide⟩
  · intro h; rw [e, tdiv_two_nonneg _ h]
  · intro h; rw [e, tdiv_two_neg _ h]
  · intro h; rw [e, h]; decide

/-- Witness of C2 at a packet with the odd negative numerator -3. -/
theorem calc_delta_truncates_witness :
    inI64 ((s_tpkt.mk 7 10 12 20 25 0).ts1 - (s_tpkt.mk 7 10 12 20 25 0).tc1) ∧
    (s_tpkt.mk 7 10 12 20 25 0).calc_delta = -1 :=
  ⟨by decide,
    (calc_delta_truncates (s_tpkt.mk 7 10 12 20 25 0) (by decide) (by decide) (by decide)).2.2.2.1
      (by decide)⟩

/-! ## Lemmas on one tick -/

theorem rand_id_lt (env : Env) : rand_id env < 2 ^ 32 := by
  unfold rand_id
  exact Nat.or_lt_two_pow (Nat.mod_lt _ (by norm_num)) (Nat.mod_lt _ (by norm_num))

theorem inI64_zero : inI64 0 := by unfold inI64; norm_num

theorem take_wire_add (p : s_tpkt) (k : Nat) (r : List Byte) :
    (p.wire ++ r).take (44 + k) = p.wire ++ r.take k := by
  have h := @List.take_append _ p.wire r k
  rw [wire_length] at h
  exact h

/-- A datagram made by `sendto` from a freshly packed buffer starts with the 44
stored octets. -/
theorem sendto_pack (cfg : Config) (p : s_tpkt) (buf : List Byte) (a : Addr) :
    sendto cfg (p.pack buf) a = (p.wire ++ (buf.drop 44).take cfg.padding, a) := by
  unfold sendto s_tpkt.pack sizeofTpkt
  rw [take_wire_add]

/-- Receiving a datagram that starts with the 44 stored octets of `p` puts
them at the front of the buffer. -/
theorem recvfrom_wire (cfg : Config) (p : s_tpkt) (tail buf : List Byte) :
    ∃ rest, recvfrom cfg buf (p.wire ++ tail) = p.wire ++ rest := by
  unfold recvfrom sizeofTpkt
  rw [take_wire_add]
  exact ⟨_, List.append_assoc _ _ _⟩

theorem unpack_recvfrom_wire (cfg : Config) (p : s_tpkt) (h : p.valid) (tail buf : List Byte) :
    s_tpkt.unpack (recvfrom cfg buf (p.wire ++ tail)) = p := by
  obtain ⟨rest, e⟩ := recvfrom_wire cfg p tail buf
  rw [e]
  exact unpack_wire_append p h rest

theorem unpack_valid (buf : List Byte) : (s_tpkt.unpack buf).valid := by
  refine ⟨?_, ofU64_inI64 _, ofU64_inI64 _, ofU64_inI64 _, ofU64_inI64 _, ofU64_inI64 _⟩
  have h := leVal_lt (buf.take 4)
  have hl : (buf.take 4).length ≤ 4 := by simp
  calc leVal (buf.take 4) < 256 ^ (buf.take 4).length := h
    _ ≤ 256 ^ 4 := Nat.pow_le_pow_right (by norm_num) hl
    _ = 2 ^ 32 := by norm_num

theorem proc_live (cfg : Config) (env : Env) (s : State)
    (h : ¬ (cfg.replay = true ∧ cfg.has_ch = true)) :
    proc cfg env s =
      match s.mode with
      | e_mode.TRN => sttrn cfg env s
      | e_mode.WAI => stwai cfg env s
      | e_mode.RCV => strcv cfg env s
      | e_mode.REP => strep cfg env s
      | e_mode.FIX => stfix cfg env s
      | e_mode.SLP => stslp env s := by
  unfold proc
  rw [if_neg h]

theorem proc_trn (cfg : Config) (env : Env) (s : State)
    (h : ¬ (cfg.replay = true ∧ cfg.has_ch = true)) (hm : s.mode = e_mode.TRN) :
    proc cfg env s = sttrn cfg env s := by
  rw [proc_live cfg env s h, hm]

theorem proc_wai (cfg : Config) (env : Env) (s : State)
    (h : ¬ (cfg.replay = true ∧ cfg.has_ch = true)) (hm : s.mode = e_mode.WAI) :
    proc cfg env s = stwai cfg env s := by
  rw [proc_live cfg env s h, hm]

theorem proc_rcv (cfg : Config) (env : Env) (s : State)
    (h : ¬ (cfg.replay = true ∧ cfg.has_ch = true)) (hm : s.mode = e_mode.RCV) :
    proc cfg env s = strcv cfg env s := by
  rw [proc_live cfg env s h, hm]

theorem proc_rep (cfg : Config) (env : Env) (s : State)
    (h : ¬ (cfg.replay = true ∧ cfg.has_ch = true)) (hm : s.mode = e_mode.REP) :
    proc cfg env s = strep cfg env s := by
  rw [proc_live cfg env s h, hm]

theorem proc_fix (cfg : Config) (env : Env) (s : State)
    (h : ¬ (cfg.replay = true ∧ cfg.has_ch = true)) (hm : s.mode = e_mode.FIX) :
    proc cfg env s = stfix cfg env s := by
  rw [proc_live cfg env s h, hm]

theorem proc_slp (cfg : Config) (env : Env) (s : State)
    (h : ¬ (cfg.replay = true ∧ cfg.has_ch = true)) (hm : s.mode = e_mode.SLP) :
    proc cfg env s = stslp env s := by
  rw [proc_live cfg env s h, hm]

/-- The drain pass changes nothing but the scratch buffer. -/
theorem clearpkts_loop_frame (cfg : Config) (evs : List SockEvent) (del : Int) (s : State) :
    (clearpkts_loop cfg evs del s).st.mode = s.mode ∧
    (clearpkts_loop cfg evs del s).st.m_trpkt = s.m_trpkt ∧
    (clearpkts_loop cfg evs del s).st.m_sock_addr_rep = s.m_sock_addr_rep ∧
    (clearpkts_loop cfg evs del s).st.m_tnext_adj = s.m_tnext_adj ∧
    (clearpkts_loop cfg evs del s).st.m_rcv_wait_count = s.m_rcv_wait_count ∧
    (clearpkts_loop cfg evs del s).st.log = s.log ∧
    (clearpkts_loop cfg evs del s).out.delta = [] := by
  induction evs generalizing del s with
  | nil => simp [clearpkts_loop, Out.none]
  | cons e rest ih =>
    cases e with
    | recv d src =>
      simp only [clearpkts_loop, Out.append, List.nil_append]
      exact ih _ _
    | recvFail => simp [clearpkts_loop, Out.none]
    | except => simp [clearpkts_loop, Out.none]
    | unknown => simp [clearpkts_loop, Out.none]
    | timeout => simp [clearpkts_loop, Out.none]

/-- While the deadline is not behind the clock, ticks in SLP do nothing. -/
theorem run_slp_idle (cfg : Config) (h : ¬ (cfg.replay = true ∧ cfg.has_ch = true))
    (envs : List Env) (s : State) (hm : s.mode = e_mode.SLP)
    (ht : ∀ e ∈ envs, ¬ (s.m_tnext_adj < e.time)) :
    run cfg envs s = { ok := true, st := s, out := Out.none } := by
  induction envs with
  | nil => rfl
  | cons e rest ih =>
    have he : ¬ (s.m_tnext_adj < e.time) := ht e (List.mem_cons_self _ _)
    have hr : proc cfg e s = { ok := true, st := s, out := Out.none } := by
      rw [proc_slp cfg e s h hm]
      unfold stslp
      rw [if_neg he]
    have ih2 := ih (fun e2 h2 => ht e2 (List.mem_cons_of_mem _ h2))
    simp only [run, hr, ih2, if_true, Out.append, Out.none, List.append_nil]

/-! ## The full exchange -/

/-- The request of a TRN tick: its fields, the datagram, and the fields of the
filter afterwards. -/
theorem sttrn_request (cfg : Config) (env : Env) (s : State) :
    ∃ tail,
      (sttrn cfg env s).out.sent =
        [((s_tpkt.mk (rand_id env) env.time 0 0 0 0).wire ++ tail, cfg.m_sock_addr_snd)] ∧
      (sttrn cfg env s).ok = true ∧
      (sttrn cfg env s).out.delta = [] ∧
      (sttrn cfg env s).st.mode = e_mode.WAI ∧
      (sttrn cfg env s).st.m_rcv_wait_count = 0 ∧
      (sttrn cfg env s).st.m_trpkt = s_tpkt.mk (rand_id env) env.time 0 0 0 0 ∧
      (sttrn cfg env s).st.m_tnext_adj = s.m_tnext_adj ∧
      (sttrn cfg env s).st.log = s.log := by
  refine ⟨(s.m_trbuf.drop 44).take cfg.padding, ?_, rfl, rfl, rfl, rfl, rfl, rfl, rfl⟩
  simp only [sttrn, sendto_pack]

/-- An RCV tick that receives a datagram starting with the stored octets of a
packet `p`: the packet is kept with `ts1` stamped, the source is remembered and
the mode is REP, whatever the drain pass meets afterwards. -/
theorem strcv_receive (cfg : Config) (env : Env) (s : State) (p : s_tpkt) (hp : p.valid)
    (tail : List Byte) (src : Addr) (rest : List SockEvent)
    (he : env.events = SockEvent.recv (p.wire ++ tail) src :: rest) :
    (strcv cfg env s).st.mode = e_mode.REP ∧
    (strcv cfg env s).st.m_trpkt = { p with ts1 := env.time } ∧
    (strcv cfg env s).st.m_sock_addr_rep = src := by
  unfold strcv
  rw [he]
  simp only [clearpkts]
  obtain ⟨h1, h2, h3, -⟩ := clearpkts_loop_frame cfg rest (adjTicksInt cfg)
    { s with
      m_trbuf := recvfrom cfg s.m_trbuf (p.wire ++ tail), m_sock_addr_rep := src
      m_trpkt := { s_tpkt.unpack (recvfrom cfg s.m_trbuf (p.wire ++ tail)) with ts1 := env.time }
      mode := e_mode.REP }
  rw [h1, h2, h3, unpack_recvfrom_wire cfg p hp]
  exact ⟨rfl, rfl, rfl⟩

/-- The reply of a REP tick is the first datagram it sends: the pending packet
with `ts2` stamped and `del = 0`, addressed to the remembered source. -/
theorem strep_reply (cfg : Config) (env : Env) (s : State) :
    ∃ tail more,
      (strep cfg env s).out.sent =
        (({ s.m_trpkt with ts2 := env.time, del := 0 } : s_tpkt).wire ++ tail,
          s.m_sock_addr_rep) :: more ∧
      (strep cfg env s).st.mode = e_mode.RCV := by
  refine ⟨(s.m_trbuf.drop 44).take cfg.padding, (clearpkts cfg env.events
    { s with
      m_trpkt := { s.m_trpkt with ts2 := env.time, del := 0 }
      m_trbuf := ({ s.m_trpkt with ts2 := env.time, del := 0 } : s_tpkt).pack s.m_trbuf
      mode := e_mode.RCV }).out.sent, ?_, ?_⟩
  · simp only [strep, Out.append, sendto_pack, List.singleton_append]
  · simp only [strep, clearpkts]
    exact (clearpkts_loop_frame cfg env.events (adjTicksInt cfg) _).1

/-- A WAI tick whose first datagram starts with the stored octets of a packet
`r` with the pending id and `del = 0`, no other datagram before it. -/
theorem stwai_accept (cfg : Config) (env : Env) (s : State) (r : s_tpkt) (hr : r.valid)
    (hid : r.id = s.m_trpkt.id) (hdel : r.del = 0)
    (tail : List Byte) (src : Addr) (rest : List SockEvent)
    (he : env.events = SockEvent.recv (r.wire ++ tail) src :: rest) :
    stwai cfg env s =
      { ok := true
        st := { s with
          m_trbuf := recvfrom cfg s.m_trbuf (r.wire ++ tail)
          m_sock_addr_rep := src
          m_trpkt := { s.m_trpkt with ts1 := r.ts1, ts2 := r.ts2, tc2 := env.time }
          mode := e_mode.FIX }
        out := Out.none } := by
  unfold stwai
  rw [he]
  simp only [stwai_loop, unpack_recvfrom_wire cfg r hr, hid, if_true, stwai_match, hdel,
    ne_eq, not_true_eq_false, if_false]

/-- C3. Full exchange. A live requester with a channel attached ticks in TRN at
time `e0.time` and sends the request `d0`; a live responder in RCV receives `d0`
in its tick at `e1.time` and its next tick, at `e2.time`, sends the reply `d2`
first; the next tick of the requester, at `e3.time`, receives `d2` before any
other datagram. With clock values and differences inside 64 bits: the requester
goes TRN, WAI, FIX; its FIX tick at `e4.time` hands exactly the pair
`(e4.time, ((e1.time - e0.time) - (e3.time - e2.time)) / 2)` (truncated
quotient) to the channel and goes to SLP, the TRN and WAI ticks having handed
over nothing; and all later ticks at times earlier than `e4.time` plus
`m_adjust_intvl * SEC` succeed, stay in SLP, and neither send nor hand over
anything. -/
theorem full_exchange (cq cr : Config) (q0 s0 : State) (e0 e1 e2 e3 e4 : Env)
    (d0 d2 : List Byte) (a0 a2 src src3 : Addr) (rest1 rest3 : List SockEvent)
    (more2 : List (List Byte × Addr))
    (hlive : cq.replay = false) (hsink : cq.has_ch = true)
    (hresp : ¬ (cr.replay = true ∧ cr.has_ch = true))
    (hq0 : q0.mode = e_mode.TRN) (hs0 : s0.mode = e_mode.RCV)
    (hd0 : (proc cq e0 q0).out.sent = [(d0, a0)])
    (he1 : e1.events = SockEvent.recv d0 src :: rest1)
    (hd2 : (proc cr e2 (proc cr e1 s0).st).out.sent = (d2, a2) :: more2)
    (he3 : e3.events = SockEvent.recv d2 src3 :: rest3)
    (ht0 : inI64 e0.time) (ht1 : inI64 e1.time) (ht2 : inI64 e2.time)
    (hn1 : inI64 (e1.time - e0.time)) (hn2 : inI64 (e3.time - e2.time))
    (hn3 : inI64 ((e1.time - e0.time) - (e3.time - e2.time)))
    (hi : inI64 (cq.m_adjust_intvl * cq.SEC))
    (hdl : inI64 (e4.time + cq.m_adjust_intvl * cq.SEC)) :
    (proc cq e0 q0).ok = true ∧ (proc cq e0 q0).st.mode = e_mode.WAI ∧
    (proc cq e0 q0).out.delta = [] ∧
    (proc cq e3 (proc cq e0 q0).st).ok = true ∧
    (proc cq e3 (proc cq e0 q0).st).st.mode = e_mode.FIX ∧
    (proc cq e3 (proc cq e0 q0).st).out.delta = [] ∧
    (proc cq e4 (proc cq e3 (proc cq e0 q0).st).st).ok = true ∧
    (proc cq e4 (proc cq e3 (proc cq e0 q0).st).st).out.delta =
      [(e4.time, Int.tdiv ((e1.time - e0.time) - (e3.time - e2.time)) 2)] ∧
    (proc cq e4 (proc cq e3 (proc cq e0 q0).st).st).st.mode = e_mode.SLP ∧
    ∀ envs : List Env, (∀ e ∈ envs, e.time < e4.time + cq.m_adjust_intvl * cq.SEC) →
      (run cq envs (proc cq e4 (proc cq e3 (proc cq e0 q0).st).st).st).ok = true ∧
      (run cq envs (proc cq e4 (proc cq e3 (proc cq e0 q0).st).st).st).st.mode = e_mode.SLP ∧
      (run cq envs (proc cq e4 (proc cq e3 (proc cq e0 q0).st).st).st).out.delta = [] ∧
      (run cq envs (proc cq e4 (proc cq e3 (proc cq e0 q0).st).st).st).out.sent = [] ∧
      (run cq (e0 :: e3 :: e4 :: envs) q0).out.delta =
        [(e4.time, Int.tdiv ((e1.time - e0.time) - (e3.time - e2.time)) 2)] := by
  have hq : ¬ (cq.replay = true ∧ cq.has_ch = true) := by simp [hlive]
  -- the TRN tick of the requester
  obtain ⟨tail0, hs, hok0, hdelta0, hm0, -, hp0, -, -⟩ := sttrn_request cq e0 q0
  rw [← proc_trn cq e0 q0 hq hq0] at hs hok0 hdelta0 hm0 hp0
  have hP : (s_tpkt.mk (rand_id e0) e0.time 0 0 0 0).valid :=
    ⟨rand_id_lt e0, ht0, inI64_zero, inI64_zero, inI64_zero, inI64_zero⟩
  have hd0e : d0 = (s_tpkt.mk (rand_id e0) e0.time 0 0 0 0).wire ++ tail0 := by
    rw [hs] at hd0
    simp only [List.cons.injEq, Prod.mk.injEq, and_true] at hd0
    exact hd0.1.symm
  -- the RCV tick and the REP tick of the responder
  rw [hd0e] at he1
  obtain ⟨hm1, hp1, ha1⟩ := strcv_receive cr e1 s0 _ hP tail0 src rest1 he1
  rw [← proc_rcv cr e1 s0 hresp hs0] at hm1 hp1 ha1
  obtain ⟨tail2, more, hs2, -⟩ := strep_reply cr e2 (proc cr e1 s0).st
  rw [← proc_rep cr e2 _ hresp hm1, hp1] at hs2
  have hR : (s_tpkt.mk (rand_id e0) e0.time e1.time e2.time 0 0).valid :=
    ⟨rand_id_lt e0, ht0, ht1, ht2, inI64_zero, inI64_zero⟩
  have hd2e : d2 = (s_tpkt.mk (rand_id e0) e0.time e1.time e2.time 0 0).wire ++ tail2 := by
    rw [hs2] at hd2
    simp only [List.cons.injEq, Prod.mk.injEq] at hd2
    exact hd2.1.1.symm
  -- the WAI tick of the requester
  rw [hd2e] at he3
  have h3 := stwai_accept cq e3 (proc cq e0 q0).st _ hR (by rw [hp0]) rfl tail2 src3 rest3 he3
  rw [← proc_wai cq e3 _ hq hm0, hp0] at h3
  -- the FIX tick
  have hm3 : (proc cq e3 (proc cq e0 q0).st).st.mode = e_mode.FIX := by rw [h3]
  have hdelta : (s_tpkt.mk (rand_id e0) e0.time e1.time e2.time e3.time 0).calc_delta =
      Int.tdiv ((e1.time - e0.time) - (e3.time - e2.time)) 2 :=
    calc_delta_eq _ hn1 hn2 hn3
  have h4 : proc cq e4 (proc cq e3 (proc cq e0 q0).st).st =
      stfix cq e4 (proc cq e3 (proc cq e0 q0).st).st := proc_fix cq e4 _ hq hm3
  have hadj : wrap64 (e4.time + adjTicks cq) = e4.time + cq.m_adjust_intvl * cq.SEC := by
    unfold adjTicks
    rw [wrap64_of_inI64 _ hi, wrap64_of_inI64 _ hdl]
  have hout4 : (proc cq e4 (proc cq e3 (proc cq e0 q0).st).st).out.delta =
      [(e4.time, Int.tdiv ((e1.time - e0.time) - (e3.time - e2.time)) 2)] := by
    rw [h4, h3]
    simp only [stfix, hsink, if_true, hdelta]
  have hm4 : (proc cq e4 (proc cq e3 (proc cq e0 q0).st).st).st.mode = e_mode.SLP := by
    rw [h4]
    simp only [stfix, hsink, if_true]
  have hok4 : (proc cq e4 (proc cq e3 (proc cq e0 q0).st).st).ok = true := by
    rw [h4]
    simp only [stfix, hsink, if_true]
  have hnext : (proc cq e4 (proc cq e3 (proc cq e0 q0).st).st).st.m_tnext_adj =
      e4.time + cq.m_adjust_intvl * cq.SEC := by
    rw [h4]
    simp only [stfix, hsink, if_true, hadj]
  have hok3 : (proc cq e3 (proc cq e0 q0).st).ok = true := by rw [h3]
  have hdelta3 : (proc cq e3 (proc cq e0 q0).st).out.delta = [] := by rw [h3]; rfl
  refine ⟨hok0, hm0, hdelta0, hok3, hm3, hdelta3, hok4, hout4, hm4, ?_⟩
  intro envs henvs
  have hidle := run_slp_idle cq hq envs _ hm4 (fun e he => by
    rw [hnext]
    have := henvs e he
    omega)
  refine ⟨by rw [hidle], by rw [hidle]; exact hm4, by rw [hidle]; rfl, by rw [hidle]; rfl, ?_⟩
  simp only [run, hok0, hok3, hok4, if_true, hidle, Out.append, Out.none, hdelta0, hdelta3,
    hout4, List.nil_append, List.append_nil]

/-- Witness of C3: request at 100, received at 150, replied at 160, reply
received at 220, fixed at 230: the pair handed over is `(230, -5)`. -/
theorem full_exchange_witness :
    (sampleEnv 150 [SockEvent.recv sampleRequest 9]).events =
      SockEvent.recv sampleRequest 9 :: [] ∧
    (proc sampleClient (sampleEnv 230 [])
      (proc sampleClient (sampleEnv 220 [SockEvent.recv sampleReply 1])
        (proc sampleClient (sampleEnv 100 []) (sampleState sampleClient e_mode.TRN)).st).st
      ).out.delta = [(230, -5)] :=
  ⟨rfl,
    (full_exchange sampleClient sampleServer (sampleState sampleClient e_mode.TRN)
      (sampleState sampleServer e_mode.RCV)
      (sampleEnv 100 []) (sampleEnv 150 [SockEvent.recv sampleRequest 9]) (sampleEnv 160 [])
      (sampleEnv 220 [SockEvent.recv sampleReply 1]) (sampleEnv 230 [])
      sampleRequest sampleReply 1 9 9 1 [] [] []
      rfl rfl (by decide) rfl rfl (by decide) rfl (by decide) rfl
      (by decide) (by decide) (by decide) (by decide) (by decide) (by decide)
      (by decide) (by decide)).2.2.2.2.2.2.2.1⟩

/-! ## The drain pass -/

theorem wrap64_eq_emod (x : Int) : wrap64 x = (x + 2 ^ 63) % 2 ^ 64 - 2 ^ 63 := by
  unfold wrap64 ofU64 toU64
  have h1 : (0 : Int) ≤ x % 2 ^ 64 := Int.emod_nonneg _ (by norm_num)
  have h2 : x % 2 ^ 64 < 2 ^ 64 := Int.emod_lt_of_pos _ (by norm_num)
  have h3 : (((x % 2 ^ 64).toNat % 2 ^ 64 : Nat) : Int) = x % 2 ^ 64 := by
    have : (x % 2 ^ 64).toNat < 2 ^ 64 := by omega
    rw [Nat.mod_eq_of_lt this]
    exact Int.toNat_of_nonneg h1
  have h4 : (x % 2 ^ 64).toNat % 2 ^ 64 < 2 ^ 63 ↔ x % 2 ^ 64 < 2 ^ 63 := by
    omega
  split_ifs with hc
  · rw [h3]; omega
  · rw [h3]; omega

theorem wrap64_add_wrap64 (a b : Int) : wrap64 (wrap64 a + wrap64 b) = wrap64 (a + b) := by
  simp only [wrap64_eq_emod]
  omega

theorem wrap64_inI64 (x : Int) : inI64 (wrap64 x) := ofU64_inI64 _

/-- Decoding looks at the first 44 octets only. -/
theorem unpack_append (l r : List Byte) (h : 44 ≤ l.length) :
    s_tpkt.unpack (l ++ r) = s_tpkt.unpack l := by
  have t4 : ∀ (m : List Byte), 4 ≤ m.length → (m ++ r).take 4 = m.take 4 :=
    fun m hm => List.take_append_of_le_length hm
  have d4 : ∀ (m : List Byte), 4 ≤ m.length → (m ++ r).drop 4 = m.drop 4 ++ r :=
    fun m hm => List.drop_append_of_le_length hm
  have t8 : ∀ (m : List Byte), 8 ≤ m.length → (m ++ r).take 8 = m.take 8 :=
    fun m hm => List.take_append_of_le_length hm
  have d8 : ∀ (m : List Byte), 8 ≤ m.length → (m ++ r).drop 8 = m.drop 8 ++ r :=
    fun m hm => List.drop_append_of_le_length hm
  simp only [s_tpkt.unpack]
  rw [t4 l (by omega), d4 l (by omega),
    t8 _ (by rw [List.length_drop]; omega), d8 _ (by rw [List.length_drop]; omega),
    t8 _ (by simp only [List.length_drop]; omega), d8 _ (by simp only [List.length_drop]; omega),
    t8 _ (by simp only [List.length_drop]; omega), d8 _ (by simp only [List.length_drop]; omega),
    t8 _ (by simp only [List.length_drop]; omega), d8 _ (by simp only [List.length_drop]; omega),
    t8 _ (by simp only [List.length_drop]; omega)]

/-- A received datagram of at least 44 octets is decoded by itself: what the
buffer held before does not matter. -/
theorem unpack_recvfrom (cfg : Config) (buf d : List Byte) (h : 44 ≤ d.length) :
    s_tpkt.unpack (recvfrom cfg buf d) = s_tpkt.unpack d := by
  unfold recvfrom
  rw [unpack_append _ _ (by rw [List.length_take]; unfold sizeofTpkt; omega)]
  have e : d = d.take (sizeofTpkt cfg) ++ d.drop (sizeofTpkt cfg) :=
    (List.take_append_drop _ _).symm
  conv_rhs => rw [e]
  rw [unpack_append _ _ (by rw [List.length_take]; unfold sizeofTpkt; omega)]

/-- A datagram sent from a freshly packed buffer decodes to the packet. -/
theorem unpack_sendto_pack (cfg : Config) (p : s_tpkt) (hp : p.valid) (buf : List Byte)
    (a : Addr) : s_tpkt.unpack (sendto cfg (p.pack buf) a).1 = p := by
  rw [sendto_pack]
  exact unpack_wire_append p hp _

theorem wrap64_add_left (a b : Int) : wrap64 (wrap64 a + b) = wrap64 (a + b) := by
  simp only [wrap64_eq_emod]
  omega

theorem wrap32_of_inI32 (x : Int) (h : inI32 x) : wrap32 x = x := by
  unfold inI32 at h
  unfold wrap32
  omega

theorem inI64_of_inI32 (x : Int) (h : inI32 x) : inI64 x := by
  unfold inI32 at h
  unfold inI64
  constructor <;> omega

/-- The datagrams of a drain pass, as `recvfrom` events: the `k`-th carries
`k` times the `int` product, wrapped to 64 bits. -/
theorem clearpkts_loop_sent (cfg : Config) (ds : List (List Byte × Addr))
    (hlen : ∀ x ∈ ds, 44 ≤ x.1.length) (k0 : Nat) (s : State) :
    (clearpkts_loop cfg (ds.map (fun x => SockEvent.recv x.1 x.2))
      (wrap64 ((k0 + 1 : Nat) * adjTicksInt cfg)) s).ok = true ∧
    (clearpkts_loop cfg (ds.map (fun x => SockEvent.recv x.1 x.2))
      (wrap64 ((k0 + 1 : Nat) * adjTicksInt cfg)) s).out.sent.length
        = ds.length ∧
    ∀ (k : Nat) (d : List Byte) (a : Addr), ds[k]? = some (d, a) →
      ∃ dg, (clearpkts_loop cfg (ds.map (fun x => SockEvent.recv x.1 x.2))
          (wrap64 ((k0 + 1 : Nat) * adjTicksInt cfg)) s).out.sent[k]?
            = some (dg, a) ∧
        s_tpkt.unpack dg =
          { s_tpkt.unpack d with
            del := wrap64 ((k0 + k + 1 : Nat) * adjTicksInt cfg) } := by
  induction ds generalizing k0 s with
  | nil =>
    refine ⟨rfl, rfl, ?_⟩
    intro k d a h
    simp at h
  | cons x rest ih =>
    have hx : 44 ≤ x.1.length := hlen x (List.mem_cons_self _ _)
    have hrest : ∀ y ∈ rest, 44 ≤ y.1.length := fun y hy => hlen y (List.mem_cons_of_mem _ hy)
    have hstep : wrap64 (wrap64 ((k0 + 1 : Nat) * adjTicksInt cfg) + adjTicksInt cfg)
        = wrap64 ((k0 + 1 + 1 : Nat) * adjTicksInt cfg) := by
      rw [wrap64_add_left]
      congr 1
      push_cast
      ring
    simp only [List.map_cons, clearpkts_loop, hstep, Out.append, List.singleton_append]
    obtain ⟨ih1, ih2, ih3⟩ := ih hrest (k0 + 1)
      { s with
        m_trbuf := ({ s_tpkt.unpack (recvfrom cfg s.m_trbuf x.1) with
          del := wrap64 ((k0 + 1 : Nat) * adjTicksInt cfg) } : s_tpkt).pack
            (recvfrom cfg s.m_trbuf x.1) }
    refine ⟨ih1, by rw [List.length_cons, List.length_cons, ih2], ?_⟩
    intro k d a h
    cases k with
    | zero =>
      simp only [List.getElem?_cons_zero, Option.some.injEq] at h
      subst h
      have hv : ({ s_tpkt.unpack (recvfrom cfg s.m_trbuf d) with
          del := wrap64 ((k0 + 1 : Nat) * adjTicksInt cfg) } : s_tpkt).valid := by
        obtain ⟨v0, v1, v2, v3, v4, -⟩ := unpack_valid (recvfrom cfg s.m_trbuf d)
        exact ⟨v0, v1, v2, v3, v4, wrap64_inI64 _⟩
      refine ⟨(sendto cfg (({ s_tpkt.unpack (recvfrom cfg s.m_trbuf d) with
          del := wrap64 ((k0 + 1 : Nat) * adjTicksInt cfg) } : s_tpkt).pack
            (recvfrom cfg s.m_trbuf d)) a).1,
        by simp only [List.getElem?_cons_zero, sendto], ?_⟩
      rw [unpack_sendto_pack cfg _ hv, unpack_recvfrom cfg _ _ hx]
    | succ k =>
      simp only [List.getElem?_cons_succ] at h
      obtain ⟨dg, hdg, hun⟩ := ih3 k d a h
      refine ⟨dg, by simp only [List.getElem?_cons_succ]; exact hdg, ?_⟩
      rw [hun]
      have e : k0 + 1 + k + 1 = k0 + (k + 1) + 1 := by omega
      rw [e]

theorem inI64_mul_of_le (n m : Nat) (i : Int) (h : inI64 ((n : Int) * i)) (hm : m ≤ n) :
    inI64 ((m : Int) * i) := by
  unfold inI64 at *
  have hmn : (m : Int) ≤ (n : Int) := by exact_mod_cast hm
  have hm0 : (0 : Int) ≤ (m : Int) := by exact_mod_cast Nat.zero_le m
  rcases Int.lt_or_le i 0 with hi | hi
  · have h1 : (n : Int) * i ≤ (m : Int) * i := mul_le_mul_of_nonpos_right hmn (le_of_lt hi)
    have h2 : (m : Int) * i ≤ 0 := mul_nonpos_of_nonneg_of_nonpos hm0 (le_of_lt hi)
    constructor <;> omega
  · have h1 : (m : Int) * i ≤ (n : Int) * i := mul_le_mul_of_nonneg_right hmn hi
    have h2 : 0 ≤ (m : Int) * i := mul_nonneg hm0 hi
    constructor <;> omega

/-- The drain pass while the interval fits in an `int`. When the `select`
calls of a drain pass report `n` datagrams (each of at least 44 octets) and
then nothing more, `m_adjust_intvl * SEC` fits in 32 bits and `n` times it in
64 bits, the pass succeeds and makes exactly `n` `sendto` calls, in arrival
order: the `k`-th (counted from 1) goes to the source of the `k`-th datagram
and decodes to the decoded `k`-th datagram with only `del` replaced by
`k * (m_adjust_intvl * SEC)`; hence, for a positive interval, the `del` values
sent grow strictly in arrival order. -/
theorem clearpkts_backoff_in_range (cfg : Config) (s : State) (ds : List (List Byte × Addr))
    (hlen : ∀ x ∈ ds, 44 ≤ x.1.length)
    (h32 : inI32 (cfg.m_adjust_intvl * cfg.SEC))
    (hov : inI64 ((ds.length : Int) * (cfg.m_adjust_intvl * cfg.SEC))) :
    (clearpkts cfg (ds.map (fun x => SockEvent.recv x.1 x.2)) s).ok = true ∧
    (clearpkts cfg (ds.map (fun x => SockEvent.recv x.1 x.2)) s).out.sent.length = ds.length ∧
    (∀ (k : Nat) (d : List Byte) (a : Addr), ds[k]? = some (d, a) →
      ∃ dg, (clearpkts cfg (ds.map (fun x => SockEvent.recv x.1 x.2)) s).out.sent[k]?
          = some (dg, a) ∧
        s_tpkt.unpack dg =
          { s_tpkt.unpack d with del := ((k + 1 : Nat) : Int) * (cfg.m_adjust_intvl * cfg.SEC) }) ∧
    (0 < cfg.m_adjust_intvl * cfg.SEC →
      ∀ (j k : Nat) (dj dk : List Byte) (aj ak : Addr), j < k →
        (clearpkts cfg (ds.map (fun x => SockEvent.recv x.1 x.2)) s).out.sent[j]? = some (dj, aj) →
        (clearpkts cfg (ds.map (fun x => SockEvent.recv x.1 x.2)) s).out.sent[k]? = some (dk, ak) →
        (s_tpkt.unpack dj).del < (s_tpkt.unpack dk).del) := by
  have hA : adjTicksInt cfg = cfg.m_adjust_intvl * cfg.SEC := wrap32_of_inI32 _ h32
  have hadj : adjTicksInt cfg = wrap64 ((0 + 1 : Nat) * (cfg.m_adjust_intvl * cfg.SEC)) := by
    have e : ((0 + 1 : Nat) : Int) * (cfg.m_adjust_intvl * cfg.SEC)
        = cfg.m_adjust_intvl * cfg.SEC := by
      push_cast
      ring
    rw [e, wrap64_of_inI64 _ (inI64_of_inI32 _ h32)]
    exact hA
  obtain ⟨h1, h2, h3⟩ := clearpkts_loop_sent cfg ds hlen 0 s
  rw [hA] at h1 h2 h3
  unfold clearpkts
  rw [hadj]
  have key : ∀ (k : Nat) (d : List Byte) (a : Addr), ds[k]? = some (d, a) →
      ∃ dg, (clearpkts_loop cfg (ds.map (fun x => SockEvent.recv x.1 x.2))
          (wrap64 ((0 + 1 : Nat) * (cfg.m_adjust_intvl * cfg.SEC))) s).out.sent[k]?
            = some (dg, a) ∧
        s_tpkt.unpack dg =
          { s_tpkt.unpack d with
            del := ((k + 1 : Nat) : Int) * (cfg.m_adjust_intvl * cfg.SEC) } := by
    intro k d a hk
    obtain ⟨dg, e1, e2⟩ := h3 k d a hk
    refine ⟨dg, e1, ?_⟩
    rw [e2]
    have hkn : k < ds.length := by
      obtain ⟨hlt, -⟩ := List.getElem?_eq_some.mp hk
      exact hlt
    have hr : inI64 (((0 + k + 1 : Nat) : Int) * (cfg.m_adjust_intvl * cfg.SEC)) :=
      inI64_mul_of_le ds.length (0 + k + 1) _ hov (by omega)
    rw [wrap64_of_inI64 _ hr]
    have e : 0 + k + 1 = k + 1 := by omega
    rw [e]
  refine ⟨h1, h2, key, ?_⟩
  intro hpos j k dj dk aj ak hjk hj hk
  have hkn : k < ds.length := by
    obtain ⟨hlt, -⟩ := List.getElem?_eq_some.mp hk
    rw [h2] at hlt
    exact hlt
  have hjn : j < ds.length := by omega
  obtain ⟨xj, hxj⟩ : ∃ x, ds[j]? = some x := ⟨ds[j], List.getElem?_eq_getElem hjn⟩
  obtain ⟨xk, hxk⟩ : ∃ x, ds[k]? = some x := ⟨ds[k], List.getElem?_eq_getElem hkn⟩
  obtain ⟨gj, ej1, ej2⟩ := key j xj.1 xj.2 hxj
  obtain ⟨gk, ek1, ek2⟩ := key k xk.1 xk.2 hxk
  rw [hj] at ej1
  rw [hk] at ek1
  simp only [Option.some.injEq, Prod.mk.injEq] at ej1 ek1
  rw [ej1.1, ek1.1, ej2, ek2]
  show ((j + 1 : Nat) : Int) * (cfg.m_adjust_intvl * cfg.SEC)
    < ((k + 1 : Nat) : Int) * (cfg.m_adjust_intvl * cfg.SEC)
  have hc : ((j + 1 : Nat) : Int) < ((k + 1 : Nat) : Int) := by exact_mod_cast Nat.succ_lt_succ hjk
  exact mul_lt_mul_of_pos_right hc hpos

/-- With `Tadj = 10` the product fits: two queued requests are rejected with
`del` equal to one and two intervals of `10 * SEC`, each sent to its own
source. -/
theorem clearpkts_backoff_in_range_witness :
    (∀ x ∈ sampleQueue, 44 ≤ x.1.length) ∧
    (∃ dg, (clearpkts sampleServer (sampleQueue.map (fun x => SockEvent.recv x.1 x.2))
          (sampleState sampleServer e_mode.RCV)).out.sent[0]? = some (dg, 5) ∧
        s_tpkt.unpack dg = s_tpkt.mk 11 100 0 0 0 100000000) ∧
    (∃ dg, (clearpkts sampleServer (sampleQueue.map (fun x => SockEvent.recv x.1 x.2))
          (sampleState sampleServer e_mode.RCV)).out.sent[1]? = some (dg, 6) ∧
        s_tpkt.unpack dg = s_tpkt.mk 22 101 0 0 0 200000000) :=
  ⟨by decide,
    (clearpkts_backoff_in_range sampleServer (sampleState sampleServer e_mode.RCV) sampleQueue
      (by decide) (by decide) (by decide)).2.2.1 0 (s_tpkt.mk 11 100 0 0 0 0).wire 5 rfl,
    (clearpkts_backoff_in_range sampleServer (sampleState sampleServer e_mode.RCV) sampleQueue
      (by decide) (by decide) (by decide)).2.2.1 1 (s_tpkt.mk 22 101 0 0 0 0).wire 6 rfl⟩

/-- C4, at an interval that does not fit in an `int`. With `Tadj = 215` and
`SEC = 10000000` the interval is `2150000000` clock units. The cast product of
`stfix` is that value, but the uncast `int` product of `clearpkts` is
`-2144967296`: the drain pass rejects the two queued requests (from the
addresses 5 and 6) with `del = -2144967296` and `del = -4289934592`, not with
one and two intervals, and the values fall in arrival order. -/
theorem clearpkts_backoff_int_overflow :
    sampleServer215.m_adjust_intvl * sampleServer215.SEC = 2150000000 ∧
    adjTicks sampleServer215 = 2150000000 ∧
    adjTicksInt sampleServer215 = -2144967296 ∧
    (∀ x ∈ sampleQueue, 44 ≤ x.1.length) ∧
    (clearpkts sampleServer215 sampleQueued (sampleState sampleServer215 e_mode.RCV)).ok
      = true ∧
    (clearpkts sampleServer215 sampleQueued
      (sampleState sampleServer215 e_mode.RCV)).out.sent.map
        (fun x => ((s_tpkt.unpack x.1).del, x.2)) = [(-2144967296, 5), (-4289934592, 6)] := by
  decide

/-! ## The WAI tick -/

theorem stwai_timeout_cases (cfg : Config) (count : Nat) (s : State) :
    (stwai_timeout cfg count s).m_trpkt = s.m_trpkt ∧
    (stwai_timeout cfg count s).m_tnext_adj = s.m_tnext_adj ∧
    (stwai_timeout cfg count s).log = s.log ∧
    (((stwai_timeout cfg count s).mode = e_mode.WAI ∧
        (stwai_timeout cfg count s).m_rcv_wait_count = s.m_rcv_wait_count + 1 ∧
        s.m_rcv_wait_count < cfg.m_max_rcv_wait_count ∧ count = 0) ∨
      ((stwai_timeout cfg count s).mode = e_mode.TRN ∧
        (stwai_timeout cfg count s).m_rcv_wait_count = s.m_rcv_wait_count ∧
        ¬ (s.m_rcv_wait_count < cfg.m_max_rcv_wait_count ∧ count = 0))) := by
  unfold stwai_timeout
  split_ifs with h
  · exact ⟨rfl, rfl, rfl, Or.inl ⟨rfl, rfl, h.1, h.2⟩⟩
  · exact ⟨rfl, rfl, rfl, Or.inr ⟨rfl, rfl, h⟩⟩

/-- The loop of `stwai` over datagrams that all carry a foreign id. -/
theorem stwai_loop_foreign (cfg : Config) (env : Env) (evs : List SockEvent) (count : Nat)
    (s : State)
    (h : ∀ e ∈ evs, e = SockEvent.timeout ∨
      ∃ d src, e = SockEvent.recv d src ∧ 44 ≤ d.length ∧ (s_tpkt.unpack d).id ≠ s.m_trpkt.id) :
    (stwai_loop cfg env evs count s).ok = true ∧
    (stwai_loop cfg env evs count s).out = Out.none ∧
    (stwai_loop cfg env evs count s).st.m_trpkt = s.m_trpkt ∧
    (stwai_loop cfg env evs count s).st.m_tnext_adj = s.m_tnext_adj ∧
    (((stwai_loop cfg env evs count s).st.mode = e_mode.WAI ∧
        (stwai_loop cfg env evs count s).st.m_rcv_wait_count = s.m_rcv_wait_count + 1) ∨
      ((stwai_loop cfg env evs count s).st.mode = e_mode.TRN ∧
        (stwai_loop cfg env evs count s).st.m_rcv_wait_count = s.m_rcv_wait_count)) := by
  induction evs generalizing count s with
  | nil =>
    obtain ⟨h1, h2, -, h4⟩ := stwai_timeout_cases cfg count s
    refine ⟨rfl, rfl, h1, h2, ?_⟩
    rcases h4 with ⟨a, b, -⟩ | ⟨a, b, -⟩
    · exact Or.inl ⟨a, b⟩
    · exact Or.inr ⟨a, b⟩
  | cons e rest ih =>
    rcases h e (List.mem_cons_self _ _) with he | ⟨d, src, he, hlen, hid⟩
    · subst he
      obtain ⟨h1, h2, -, h4⟩ := stwai_timeout_cases cfg count s
      refine ⟨rfl, rfl, h1, h2, ?_⟩
      rcases h4 with ⟨a, b, -⟩ | ⟨a, b, -⟩
      · exact Or.inl ⟨a, b⟩
      · exact Or.inr ⟨a, b⟩
    · subst he
      simp only [stwai_loop, unpack_recvfrom cfg _ _ hlen, if_neg hid]
      exact ih (count + 1)
        { s with m_trbuf := recvfrom cfg s.m_trbuf d, m_sock_addr_rep := src }
        (fun e2 h2 => h e2 (List.mem_cons_of_mem _ h2))

/-- C5. Foreign reply rejection. In a WAI tick of a live filter in which every
datagram received (each of at least 44 octets) carries an id different from the
id of the pending request, and the `select` calls otherwise only time out, the
tick returns true, the mode afterwards is not FIX (it is WAI or TRN), nothing is
handed to the channel and nothing is sent, the pending packet is unchanged, and
the wait counter is either unchanged or one higher: neither reset nor
decreased. -/
theorem foreign_reply_rejected (cfg : Config) (env : Env) (s : State)
    (hlive : ¬ (cfg.replay = true ∧ cfg.has_ch = true)) (hm : s.mode = e_mode.WAI)
    (h : ∀ e ∈ env.events, e = SockEvent.timeout ∨
      ∃ d src, e = SockEvent.recv d src ∧ 44 ≤ d.length ∧ (s_tpkt.unpack d).id ≠ s.m_trpkt.id) :
    (proc cfg env s).ok = true ∧
    (proc cfg env s).st.mode ≠ e_mode.FIX ∧
    ((proc cfg env s).st.mode = e_mode.WAI ∨ (proc cfg env s).st.mode = e_mode.TRN) ∧
    (proc cfg env s).out.delta = [] ∧
    (proc cfg env s).out.sent = [] ∧
    (proc cfg env s).st.m_trpkt = s.m_trpkt ∧
    ((proc cfg env s).st.m_rcv_wait_count = s.m_rcv_wait_count ∨
      (proc cfg env s).st.m_rcv_wait_count = s.m_rcv_wait_count + 1) ∧
    s.m_rcv_wait_count ≤ (proc cfg env s).st.m_rcv_wait_count := by
  rw [proc_wai cfg env s hlive hm]
  unfold stwai
  obtain ⟨h1, h2, h3, -, h5⟩ := stwai_loop_foreign cfg env env.events 0 s h
  refine ⟨h1, ?_, ?_, by rw [h2]; rfl, by rw [h2]; rfl, h3, ?_, ?_⟩
  · rcases h5 with ⟨a, -⟩ | ⟨a, -⟩ <;> (rw [a]; decide)
  · rcases h5 with ⟨a, -⟩ | ⟨a, -⟩
    · exact Or.inl a
    · exact Or.inr a
  · rcases h5 with ⟨-, b⟩ | ⟨-, b⟩
    · exact Or.inr b
    · exact Or.inl b
  · rcases h5 with ⟨-, b⟩ | ⟨-, b⟩ <;> rw [b]
    omega

/-- Witness of C5: the sample client, one timeout behind it, receives a reply
with id 7 while waiting for id 65538: mode TRN, counter still 1. -/
theorem foreign_reply_rejected_witness :
    (sampleWaiting 1).mode = e_mode.WAI ∧
    (proc sampleClient (sampleEnv 220 [SockEvent.recv sampleForeign 1]) (sampleWaiting 1)).ok
      = true ∧
    (proc sampleClient (sampleEnv 220 [SockEvent.recv sampleForeign 1])
      (sampleWaiting 1)).st.mode ≠ e_mode.FIX :=
  ⟨rfl,
    (foreign_reply_rejected sampleClient (sampleEnv 220 [SockEvent.recv sampleForeign 1])
      (sampleWaiting 1) (by decide) rfl (by
        intro e he
        simp only [sampleEnv, List.mem_singleton] at he
        exact Or.inr ⟨sampleForeign, 1, he, by decide, by decide⟩)).1,
    (foreign_reply_rejected sampleClient (sampleEnv 220 [SockEvent.recv sampleForeign 1])
      (sampleWaiting 1) (by decide) rfl (by
        intro e he
        simp only [sampleEnv, List.mem_singleton] at he
        exact Or.inr ⟨sampleForeign, 1, he, by decide, by decide⟩)).2.1⟩

/-! ## Timeouts in WAI -/

/-- A WAI tick in which the first `select` times out. -/
theorem proc_wai_timeout (cfg : Config) (env : Env) (s : State)
    (hlive : ¬ (cfg.replay = true ∧ cfg.has_ch = true)) (hm : s.mode = e_mode.WAI)
    (ht : env.events = [] ∨ ∃ rest, env.events = SockEvent.timeout :: rest) :
    proc cfg env s = { ok := true, st := stwai_timeout cfg 0 s, out := Out.none } := by
  rw [proc_wai cfg env s hlive hm]
  unfold stwai
  rcases ht with h | ⟨rest, h⟩ <;> (rw [h]; rfl)

/-- Timeouts below the maximum keep the filter in WAI and count up. -/
theorem run_wai_timeouts_below (cfg : Config) (hlive : ¬ (cfg.replay = true ∧ cfg.has_ch = true))
    (envs : List Env) (s : State) (hm : s.mode = e_mode.WAI)
    (ht : ∀ e ∈ envs, e.events = [] ∨ ∃ rest, e.events = SockEvent.timeout :: rest)
    (hc : s.m_rcv_wait_count + (envs.length : Int) ≤ cfg.m_max_rcv_wait_count) :
    (run cfg envs s).ok = true ∧ (run cfg envs s).st.mode = e_mode.WAI ∧
    (run cfg envs s).st.m_rcv_wait_count = s.m_rcv_wait_count + (envs.length : Int) ∧
    (run cfg envs s).st.m_trpkt = s.m_trpkt ∧
    (run cfg envs s).out = Out.none := by
  induction envs generalizing s with
  | nil => exact ⟨rfl, hm, by simp [run], rfl, rfl⟩
  | cons e rest ih =>
    have hp := proc_wai_timeout cfg e s hlive hm (ht e (List.mem_cons_self _ _))
    have hlt : s.m_rcv_wait_count < cfg.m_max_rcv_wait_count := by
      simp only [List.length_cons] at hc
      push_cast at hc
      omega
    have hst : stwai_timeout cfg 0 s =
        { s with mode := e_mode.WAI, m_rcv_wait_count := s.m_rcv_wait_count + 1 } := by
      unfold stwai_timeout
      rw [if_pos ⟨hlt, rfl⟩]
    obtain ⟨i1, i2, i3, i4, i5⟩ := ih (stwai_timeout cfg 0 s) (by rw [hst])
      (fun e2 h2 => ht e2 (List.mem_cons_of_mem _ h2))
      (by
        rw [hst]
        simp only [List.length_cons] at hc
        push_cast at hc
        show s.m_rcv_wait_count + 1 + (rest.length : Int) ≤ cfg.m_max_rcv_wait_count
        omega)
    simp only [run, hp, if_true]
    refine ⟨i1, i2, ?_, ?_, ?_⟩
    · rw [i3, hst]
      simp only [List.length_cons]
      push_cast
      omega
    · rw [i4, hst]
    · rw [i5]; rfl

/-- One more timeout at the maximum moves the filter to TRN. -/
theorem proc_wai_timeout_at_max (cfg : Config) (env : Env) (s : State)
    (hlive : ¬ (cfg.replay = true ∧ cfg.has_ch = true)) (hm : s.mode = e_mode.WAI)
    (ht : env.events = [] ∨ ∃ rest, env.events = SockEvent.timeout :: rest)
    (hc : cfg.m_max_rcv_wait_count ≤ s.m_rcv_wait_count) :
    proc cfg env s = { ok := true, st := { s with mode := e_mode.TRN }, out := Out.none } := by
  rw [proc_wai_timeout cfg env s hlive hm ht]
  unfold stwai_timeout
  rw [if_neg (by omega)]

theorem run_append (cfg : Config) (a b : List Env) (s : State)
    (h : (run cfg a s).ok = true) :
    run cfg (a ++ b) s =
      { run cfg b (run cfg a s).st with
        out := Out.append (run cfg a s).out (run cfg b (run cfg a s).st).out } := by
  induction a generalizing s with
  | nil => simp [run, Out.append, Out.none]
  | cons e rest ih =>
    by_cases hok : (proc cfg e s).ok = true
    · have h2 : (run cfg rest (proc cfg e s).st).ok = true := by
        simp only [run, hok, if_true] at h
        exact h
      have e1 : (e :: rest) ++ b = e :: (rest ++ b) := rfl
      rw [e1]
      simp only [run, hok, if_true]
      rw [ih _ h2]
      simp [Out.append, List.append_assoc]
    · exfalso
      simp only [run, if_neg hok] at h
      exact hok h

/-- C6, as the code has it. For a maximum `N` (the number of ticks below, so
not negative) and a live filter in WAI with the wait counter at 0: after `N`
consecutive ticks that each meet only a timeout the mode is still WAI and the
counter is `N`; one more such tick, the `N + 1`-th, moves the mode to TRN. -/
theorem timeout_exhaustion (cfg : Config) (s : State) (envs : List Env) (last : Env)
    (hlive : ¬ (cfg.replay = true ∧ cfg.has_ch = true))
    (hm : s.mode = e_mode.WAI) (hc : s.m_rcv_wait_count = 0)
    (hlen : (envs.length : Int) = cfg.m_max_rcv_wait_count)
    (ht : ∀ e ∈ envs, e.events = [] ∨ ∃ rest, e.events = SockEvent.timeout :: rest)
    (htl : last.events = [] ∨ ∃ rest, last.events = SockEvent.timeout :: rest) :
    (run cfg envs s).ok = true ∧
    (run cfg envs s).st.mode = e_mode.WAI ∧
    (run cfg envs s).st.m_rcv_wait_count = cfg.m_max_rcv_wait_count ∧
    (run cfg (envs ++ [last]) s).ok = true ∧
    (run cfg (envs ++ [last]) s).st.mode = e_mode.TRN := by
  obtain ⟨h1, h2, h3, -, -⟩ := run_wai_timeouts_below cfg hlive envs s hm ht (by omega)
  have h3b : (run cfg envs s).st.m_rcv_wait_count = cfg.m_max_rcv_wait_count := by
    rw [h3]; omega
  refine ⟨h1, h2, h3b, ?_, ?_⟩
  · rw [run_append cfg envs [last] s h1]
    simp only [run, proc_wai_timeout_at_max cfg last _ hlive h2 htl (by omega), if_true]
  · rw [run_append cfg envs [last] s h1]
    simp only [run, proc_wai_timeout_at_max cfg last _ hlive h2 htl (by omega), if_true]

/-- Witness of the amended C6 with `MaxWaitCount = 2`. -/
theorem timeout_exhaustion_witness :
    ((sampleWaiting 0).m_rcv_wait_count = 0 ∧ sampleClient.m_max_rcv_wait_count = 2) ∧
    (run sampleClient ([sampleEnv 110 [], sampleEnv 120 []] ++ [sampleEnv 130 []])
      (sampleWaiting 0)).st.mode = e_mode.TRN :=
  ⟨⟨rfl, rfl⟩,
    (timeout_exhaustion sampleClient (sampleWaiting 0) [sampleEnv 110 [], sampleEnv 120 []]
      (sampleEnv 130 []) (by decide) rfl rfl rfl
      (by
        intro e he
        simp only [List.mem_cons, List.mem_singleton, List.mem_nil_iff, or_false] at he
        rcases he with h | h <;> (rw [h]; exact Or.inl rfl))
      (Or.inl rfl)).2.2.2.2⟩

/-- Counterexample to C6 as stated: with `MaxWaitCount = 2`, starting in WAI
with the counter at 0, two consecutive ticks that each meet only a timeout
leave the mode WAI, not TRN. -/
theorem timeout_exhaustion_counterexample :
    sampleClient.m_max_rcv_wait_count = 2 ∧
    (sampleWaiting 0).mode = e_mode.WAI ∧ (sampleWaiting 0).m_rcv_wait_count = 0 ∧
    (run sampleClient [sampleEnv 110 [], sampleEnv 120 []] (sampleWaiting 0)).ok = true ∧
    (run sampleClient [sampleEnv 110 [], sampleEnv 120 []] (sampleWaiting 0)).st.mode
      = e_mode.WAI ∧
    (run sampleClient [sampleEnv 110 [], sampleEnv 120 []] (sampleWaiting 0)).st.mode
      ≠ e_mode.TRN := by
  decide

/-! ## Replay -/

theorem proc_replay_some (cfg : Config) (env : Env) (s : State)
    (hr : cfg.replay = true) (hch : cfg.has_ch = true) (hok : env.log_read_ok = true)
    (t off : Int) (rest : List Rec) (hrec : s.log.records = (t, off) :: rest) :
    proc cfg env s =
      { ok := true, st := { s with log := { s.log with records := rest } }
        out := { sent := [], delta := [(t, off)] } } := by
  unfold proc
  rw [if_pos ⟨hr, hch⟩]
  simp only [c_log.read, hok, hrec]

theorem proc_replay_none (cfg : Config) (env : Env) (s : State)
    (hr : cfg.replay = true) (hch : cfg.has_ch = true)
    (h : env.log_read_ok = false ∨ s.log.records = []) :
    proc cfg env s = { ok := false, st := s, out := Out.none } := by
  unfold proc
  rw [if_pos ⟨hr, hch⟩]
  rcases h with h | h
  · simp only [c_log.read, h]
  · cases hb : env.log_read_ok <;> simp only [c_log.read, h]

/-- Replaying as many ticks as the log can serve hands over the records in
their order. -/
theorem run_replay (cfg : Config) (hr : cfg.replay = true) (hch : cfg.has_ch = true)
    (envs : List Env) (s : State) (hok : ∀ e ∈ envs, e.log_read_ok = true)
    (hlen : envs.length ≤ s.log.records.length) :
    (run cfg envs s).ok = true ∧
    (run cfg envs s).out.delta = s.log.records.take envs.length ∧
    (run cfg envs s).out.sent = [] ∧
    (run cfg envs s).st.log.records = s.log.records.drop envs.length ∧
    (run cfg envs s).st.mode = s.mode ∧
    (run cfg envs s).st.m_trpkt = s.m_trpkt ∧
    (run cfg envs s).st.m_rcv_wait_count = s.m_rcv_wait_count ∧
    (run cfg envs s).st.m_tnext_adj = s.m_tnext_adj := by
  induction envs generalizing s with
  | nil => simp [run, Out.none]
  | cons e rest ih =>
    cases hrec : s.log.records with
    | nil => rw [hrec] at hlen; simp at hlen
    | cons r rs =>
      obtain ⟨t, off⟩ := r
      have hp := proc_replay_some cfg e s hr hch (hok e (List.mem_cons_self _ _)) t off rs hrec
      obtain ⟨i1, i2, i3, i4, i5, i6, i7, i8⟩ :=
        ih { s with log := { s.log with records := rs } }
          (fun e2 h2 => hok e2 (List.mem_cons_of_mem _ h2))
          (by
            rw [hrec] at hlen
            simp only [List.length_cons] at hlen
            show rest.length ≤ rs.length
            omega)
      simp only [run, hp, if_true, Out.append]
      refine ⟨i1, ?_, ?_, ?_, i5, i6, i7, i8⟩
      · rw [i2]; simp
      · rw [i3]; simp
      · rw [i4]; simp

/-- C7. Replay mode. With the replay flag set and a channel attached, a tick
runs no state handler, whatever the mode and the socket: if the log yields a
record `(t, off)` the tick hands exactly `(t, off)` to the channel, returns
true, sends nothing and leaves everything but the read position of the log
(mode, pending packet, buffer, reply address, wait counter, deadline) as it
was; if the read fails or the log is at its end the tick returns false, hands
over nothing and changes nothing. Hence successive ticks, as many as there are
records, hand over the recorded pairs in their order with their values and send
nothing. -/
theorem replay_fidelity (cfg : Config) (env : Env) (s : State)
    (hr : cfg.replay = true) (hch : cfg.has_ch = true) :
    (∀ (t off : Int) (rest : List Rec),
      env.log_read_ok = true → s.log.records = (t, off) :: rest →
        (proc cfg env s).ok = true ∧
        (proc cfg env s).out.delta = [(t, off)] ∧
        (proc cfg env s).out.sent = [] ∧
        (proc cfg env s).st = { s with log := { s.log with records := rest } } ∧
        (proc cfg env s).st.mode = s.mode ∧
        (proc cfg env s).st.m_trpkt = s.m_trpkt ∧
        (proc cfg env s).st.m_rcv_wait_count = s.m_rcv_wait_count ∧
        (proc cfg env s).st.m_tnext_adj = s.m_tnext_adj) ∧
    ((env.log_read_ok = false ∨ s.log.records = []) →
        (proc cfg env s).ok = false ∧
        (proc cfg env s).out.delta = [] ∧
        (proc cfg env s).out.sent = [] ∧
        (proc cfg env s).st = s) ∧
    (∀ envs : List Env, (∀ e ∈ envs, e.log_read_ok = true) →
      envs.length = s.log.records.length →
        (run cfg envs s).ok = true ∧
        (run cfg envs s).out.delta = s.log.records ∧
        (run cfg envs s).out.sent = []) := by
  refine ⟨?_, ?_, ?_⟩
  · intro t off rest hok hrec
    rw [proc_replay_some cfg env s hr hch hok t off rest hrec]
    exact ⟨rfl, rfl, rfl, rfl, rfl, rfl, rfl, rfl⟩
  · intro h
    rw [proc_replay_none cfg env s hr hch h]
    exact ⟨rfl, rfl, rfl, rfl⟩
  · intro envs hok hlen
    obtain ⟨h1, h2, h3, -⟩ := run_replay cfg hr hch envs s hok (by omega)
    refine ⟨h1, ?_, h3⟩
    rw [h2, hlen, List.take_length]

/-- Witness of C7: three ticks replay the three recorded pairs in order. -/
theorem replay_fidelity_witness :
    (sampleReplay.replay = true ∧ sampleReplay.has_ch = true) ∧
    (run sampleReplay [sampleEnv 0 [], sampleEnv 0 [], sampleEnv 0 []] sampleRecorded).out.delta
      = [(230, -5), (330, -4), (430, -6)] :=
  ⟨⟨rfl, rfl⟩,
    ((replay_fidelity sampleReplay (sampleEnv 0 []) sampleRecorded rfl rfl).2.2
      [sampleEnv 0 [], sampleEnv 0 [], sampleEnv 0 []] (by decide) rfl).2.1⟩

/-! ## The wire layout -/

/-- Counterexample to C8 as stated: where the struct has 4 octets of padding
(`sizeof(s_tpkt) = 48`) the datagram sent by a TRN tick is 48 octets long, not
44. -/
theorem wire_layout_counterexample :
    sizeofTpkt sampleClient = 48 ∧
    (sampleState sampleClient e_mode.TRN).m_trbuf.length = sizeofTpkt sampleClient ∧
    (proc sampleClient (sampleEnv 100 []) (sampleState sampleClient e_mode.TRN)).out.sent.map
      (fun x => x.1.length) = [48] ∧
    (proc sampleClient (sampleEnv 100 []) (sampleState sampleClient e_mode.TRN)).out.sent.map
      (fun x => x.1.length) ≠ [44] := by
  decide

/-- C8, as the code has it. For every packet `pack` writes exactly 44 octets,
the front of the buffer, and leaves the rest of the buffer alone: `id` in
octets 0..3, `tc1` in 4..11, `ts1` in 12..19, `tc2` in 20..27, `ts2` in 28..35
and `del` in 36..43 (not the order `tc1, ts1, ts2, tc2, del` of the struct).
The datagram sent from a buffer of `sizeof(s_tpkt)` octets is
`sizeof(s_tpkt) = 44 + padding` octets long and starts with those 44 octets; so
does the request of a TRN tick. -/
theorem wire_layout (cfg : Config) (p : s_tpkt) (buf : List Byte) (a : Addr)
    (env : Env) (s : State)
    (hbuf : buf.length = sizeofTpkt cfg) (hs : s.m_trbuf.length = sizeofTpkt cfg) :
    p.wire.length = 44 ∧
    (p.pack buf).take 44 = p.wire ∧ (p.pack buf).drop 44 = buf.drop 44 ∧
    (p.pack buf).length = buf.length ∧
    (p.pack buf).take 4 = leBytes 4 p.id ∧
    ((p.pack buf).drop 4).take 8 = leBytes 8 (toU64 p.tc1) ∧
    ((p.pack buf).drop 12).take 8 = leBytes 8 (toU64 p.ts1) ∧
    ((p.pack buf).drop 20).take 8 = leBytes 8 (toU64 p.tc2) ∧
    ((p.pack buf).drop 28).take 8 = leBytes 8 (toU64 p.ts2) ∧
    ((p.pack buf).drop 36).take 8 = leBytes 8 (toU64 p.del) ∧
    (sendto cfg (p.pack buf) a).1.length = 44 + cfg.padding ∧
    (sendto cfg (p.pack buf) a).1.take 44 = p.wire ∧
    (sttrn cfg env s).out.sent.map (fun x => x.1.length) = [44 + cfg.padding] ∧
    (sttrn cfg env s).out.sent.map (fun x => x.1.take 44) = [(sttrn cfg env s).st.m_trpkt.wire] := by
  have hw := wire_length p
  have hsend : ∀ (q : s_tpkt) (b : List Byte), b.length = sizeofTpkt cfg →
      (sendto cfg (q.pack b) a).1.length = 44 + cfg.padding ∧
      (sendto cfg (q.pack b) a).1.take 44 = q.wire := by
    intro q b hb
    rw [sendto_pack]
    unfold sizeofTpkt at hb
    constructor
    · simp only [List.length_append, wire_length, List.length_take, List.length_drop]
      omega
    · exact take_append_len 44 _ _ (wire_length q)
  have hpack : p.pack buf = p.wire ++ buf.drop 44 := rfl
  unfold sizeofTpkt at hbuf
  refine ⟨hw, ?_, ?_, ?_, ?_, ?_, ?_, ?_, ?_, ?_, (hsend p buf (by unfold sizeofTpkt; exact hbuf)).1,
    (hsend p buf (by unfold sizeofTpkt; exact hbuf)).2, ?_, ?_⟩
  · rw [hpack]; exact take_append_len 44 _ _ hw
  · rw [hpack]; exact drop_append_len 44 _ _ hw
  · rw [hpack]
    simp only [List.length_append, hw, List.length_drop]
    omega
  · simp [s_tpkt.pack, s_tpkt.wire, leBytes]
  · simp [s_tpkt.pack, s_tpkt.wire, leBytes]
  · simp [s_tpkt.pack, s_tpkt.wire, leBytes]
  · simp [s_tpkt.pack, s_tpkt.wire, leBytes]
  · simp [s_tpkt.pack, s_tpkt.wire, leBytes]
  · simp [s_tpkt.pack, s_tpkt.wire, leBytes]
  · have h := (hsend (s_tpkt.mk (rand_id env) env.time 0 0 0 0) s.m_trbuf hs).1
    simp only [sttrn, List.map_cons, List.map_nil]
    simp only [sendto] at h ⊢
    rw [h]
  · have h := (hsend (s_tpkt.mk (rand_id env) env.time 0 0 0 0) s.m_trbuf hs).2
    simp only [sttrn, List.map_cons, List.map_nil]
    simp only [sendto] at h ⊢
    rw [h]

/-- Witness of the amended C8 on a host without padding: the request is 44
octets long. -/
theorem wire_layout_witness :
    (sampleState sampleServer e_mode.TRN).m_trbuf.length = sizeofTpkt sampleServer ∧
    (sttrn sampleServer (sampleEnv 100 []) (sampleState sampleServer e_mode.TRN)).out.sent.map
      (fun x => x.1.length) = [44 + sampleServer.padding] :=
  ⟨by decide,
    (wire_layout sampleServer (s_tpkt.mk 65538 100 150 160 220 0)
      (sampleState sampleServer e_mode.TRN).m_trbuf 1 (sampleEnv 100 [])
      (sampleState sampleServer e_mode.TRN) (by decide) (by decide)).2.2.2.2.2.2.2.2.2.2.2.2.1⟩

/-! ## The SLP tick -/

/-- Counterexample to C10 as stated: with the clock exactly at the deadline
(both 100) the SLP tick leaves the mode SLP. -/
theorem stslp_deadline_counterexample :
    sampleSleeping.mode = e_mode.SLP ∧
    (sampleEnv 100 []).time ≥ sampleSleeping.m_tnext_adj ∧
    (proc sampleClient (sampleEnv 100 []) sampleSleeping).st.mode = e_mode.SLP ∧
    (proc sampleClient (sampleEnv 100 []) sampleSleeping).st.mode ≠ e_mode.TRN := by
  decide

/-- C10, as the code has it. An SLP tick of a live filter moves to TRN when the
clock is past the deadline (`m_tnext_adj < now`) and stays in SLP otherwise,
also when the clock is exactly at the deadline; in both cases it returns true,
sends and hands over nothing, and changes no field but the mode. -/
theorem stslp_step (cfg : Config) (env : Env) (s : State)
    (hlive : ¬ (cfg.replay = true ∧ cfg.has_ch = true)) (hm : s.mode = e_mode.SLP) :
    (s.m_tnext_adj < env.time → (proc cfg env s).st.mode = e_mode.TRN) ∧
    (env.time ≤ s.m_tnext_adj → (proc cfg env s).st.mode = e_mode.SLP) ∧
    (env.time = s.m_tnext_adj → (proc cfg env s).st.mode = e_mode.SLP) ∧
    (proc cfg env s).ok = true ∧
    (proc cfg env s).out = Out.none ∧
    (proc cfg env s).st = { s with mode := (proc cfg env s).st.mode } := by
  rw [proc_slp cfg env s hlive hm]
  unfold stslp
  by_cases h : s.m_tnext_adj < env.time
  · rw [if_pos h]
    exact ⟨fun _ => rfl, fun h2 => absurd h (by omega), fun h2 => absurd h (by omega),
      rfl, rfl, rfl⟩
  · rw [if_neg h]
    exact ⟨fun h2 => absurd h2 h, fun _ => hm, fun _ => hm, rfl, rfl, rfl⟩

/-- Witness of the amended C10: asleep until 100, the tick at 101 moves to
TRN. -/
theorem stslp_step_witness :
    sampleSleeping.mode = e_mode.SLP ∧
    (proc sampleClient (sampleEnv 101 []) sampleSleeping).st.mode = e_mode.TRN :=
  ⟨rfl, (stslp_step sampleClient (sampleEnv 101 []) sampleSleeping (by decide) rfl).1
    (by decide)⟩

/-! ## The modes of a client and of a server -/

theorem stwai_match_mode (env : Env) (count : Nat) (r : s_tpkt) (s : State) :
    (stwai_match env count r s).mode = e_mode.TRN ∨ (stwai_match env count r s).mode = e_mode.FIX ∨
    (stwai_match env count r s).mode = e_mode.SLP := by
  unfold stwai_match
  split_ifs
  · exact Or.inr (Or.inr rfl)
  · exact Or.inr (Or.inl rfl)
  · exact Or.inl rfl

theorem stwai_loop_mode (cfg : Config) (env : Env) (evs : List SockEvent) (count : Nat)
    (s : State) (hm : s.mode = e_mode.WAI) :
    (stwai_loop cfg env evs count s).st.mode = e_mode.TRN ∨
    (stwai_loop cfg env evs count s).st.mode = e_mode.WAI ∨
    (stwai_loop cfg env evs count s).st.mode = e_mode.FIX ∨
    (stwai_loop cfg env evs count s).st.mode = e_mode.SLP := by
  have htime : (stwai_timeout cfg count s).mode = e_mode.TRN ∨
      (stwai_timeout cfg count s).mode = e_mode.WAI := by
    rcases (stwai_timeout_cases cfg count s).2.2.2 with ⟨a, -⟩ | ⟨a, -⟩
    · exact Or.inr a
    · exact Or.inl a
  have hmatch : ∀ (r : s_tpkt) (s2 : State),
      (stwai_match env count r s2).mode = e_mode.TRN ∨
      (stwai_match env count r s2).mode = e_mode.WAI ∨
      (stwai_match env count r s2).mode = e_mode.FIX ∨
      (stwai_match env count r s2).mode = e_mode.SLP := by
    intro r s2
    rcases stwai_match_mode env count r s2 with a | a | a
    · exact Or.inl a
    · exact Or.inr (Or.inr (Or.inl a))
    · exact Or.inr (Or.inr (Or.inr a))
  induction evs generalizing count s with
  | nil =>
    rcases htime with a | a
    · exact Or.inl a
    · exact Or.inr (Or.inl a)
  | cons e rest ih =>
    cases e with
    | timeout =>
      rcases htime with a | a
      · exact Or.inl a
      · exact Or.inr (Or.inl a)
    | except => exact Or.inr (Or.inl hm)
    | unknown => exact Or.inr (Or.inl hm)
    | recv d src =>
      simp only [stwai_loop]
      split_ifs
      · exact hmatch _ _
      · exact ih (count + 1) _ hm
          (by
            rcases (stwai_timeout_cases cfg (count + 1) { s with
              m_trbuf := recvfrom cfg s.m_trbuf d, m_sock_addr_rep := src }).2.2.2
              with ⟨a, -⟩ | ⟨a, -⟩
            · exact Or.inr a
            · exact Or.inl a)
          (fun r s2 => by
            rcases stwai_match_mode env (count + 1) r s2 with a | a | a
            · exact Or.inl a
            · exact Or.inr (Or.inr (Or.inl a))
            · exact Or.inr (Or.inr (Or.inr a)))
    | recvFail =>
      simp only [stwai_loop]
      split_ifs
      · exact hmatch _ _
      · exact ih (count + 1) _ hm
          (by
            rcases (stwai_timeout_cases cfg (count + 1) s).2.2.2 with ⟨a, -⟩ | ⟨a, -⟩
            · exact Or.inr a
            · exact Or.inl a)
          (fun r s2 => by
            rcases stwai_match_mode env (count + 1) r s2 with a | a | a
            · exact Or.inl a
            · exact Or.inr (Or.inr (Or.inl a))
            · exact Or.inr (Or.inr (Or.inr a)))

/-- A tick of a live filter keeps a client mode a client mode. -/
theorem proc_client_mode (cfg : Config) (env : Env) (s : State)
    (hlive : ¬ (cfg.replay = true ∧ cfg.has_ch = true))
    (hm : s.mode = e_mode.TRN ∨ s.mode = e_mode.WAI ∨ s.mode = e_mode.FIX ∨
      s.mode = e_mode.SLP) :
    (proc cfg env s).st.mode = e_mode.TRN ∨ (proc cfg env s).st.mode = e_mode.WAI ∨
    (proc cfg env s).st.mode = e_mode.FIX ∨ (proc cfg env s).st.mode = e_mode.SLP := by
  rcases hm with h | h | h | h
  · rw [proc_trn cfg env s hlive h]
    exact Or.inr (Or.inl rfl)
  · rw [proc_wai cfg env s hlive h]
    exact stwai_loop_mode cfg env env.events 0 s h
  · rw [proc_fix cfg env s hlive h]
    unfold stfix
    split_ifs <;> exact Or.inr (Or.inr (Or.inr rfl))
  · rw [proc_slp cfg env s hlive h]
    unfold stslp
    split_ifs
    · exact Or.inl rfl
    · exact Or.inr (Or.inr (Or.inr h))

/-- A tick of a live filter keeps a server mode a server mode. -/
theorem proc_server_mode (cfg : Config) (env : Env) (s : State)
    (hlive : ¬ (cfg.replay = true ∧ cfg.has_ch = true))
    (hm : s.mode = e_mode.RCV ∨ s.mode = e_mode.REP) :
    (proc cfg env s).st.mode = e_mode.RCV ∨ (proc cfg env s).st.mode = e_mode.REP := by
  rcases hm with h | h
  · rw [proc_rcv cfg env s hlive h]
    unfold strcv
    split
    · rw [clearpkts, (clearpkts_loop_frame cfg _ _ _).1]; exact Or.inl h
    · rw [clearpkts, (clearpkts_loop_frame cfg _ _ _).1]; exact Or.inl h
    · exact Or.inl h
    · exact Or.inl h
    · rw [clearpkts, (clearpkts_loop_frame cfg _ _ _).1]; exact Or.inr rfl
    · rw [clearpkts, (clearpkts_loop_frame cfg _ _ _).1]; exact Or.inr rfl
  · rw [proc_rep cfg env s hlive h]
    exact Or.inl (strep_reply cfg env s).choose_spec.choose_spec.2

theorem run_client_mode (cfg : Config) (hlive : ¬ (cfg.replay = true ∧ cfg.has_ch = true))
    (envs : List Env) (s : State)
    (hm : s.mode = e_mode.TRN ∨ s.mode = e_mode.WAI ∨ s.mode = e_mode.FIX ∨
      s.mode = e_mode.SLP) :
    (run cfg envs s).st.mode = e_mode.TRN ∨ (run cfg envs s).st.mode = e_mode.WAI ∨
    (run cfg envs s).st.mode = e_mode.FIX ∨ (run cfg envs s).st.mode = e_mode.SLP := by
  induction envs generalizing s with
  | nil => exact hm
  | cons e rest ih =>
    have hp := proc_client_mode cfg e s hlive hm
    simp only [run]
    split_ifs
    · exact ih _ hp
    · exact hp

theorem run_server_mode (cfg : Config) (hlive : ¬ (cfg.replay = true ∧ cfg.has_ch = true))
    (envs : List Env) (s : State) (hm : s.mode = e_mode.RCV ∨ s.mode = e_mode.REP) :
    (run cfg envs s).st.mode = e_mode.RCV ∨ (run cfg envs s).st.mode = e_mode.REP := by
  induction envs generalizing s with
  | nil => exact hm
  | cons e rest ih =>
    have hp := proc_server_mode cfg e s hlive hm
    simp only [run]
    split_ifs
    · exact ih _ hp
    · exact hp

theorem init_run_live (cfg : Config) (ie : InitEnv) (s0 s : State)
    (hlive : cfg.replay = false) (hinit : init_run cfg ie s0 = some s) :
    s.mode = (if cfg.m_host_dst = "" then e_mode.RCV else e_mode.TRN) := by
  unfold init_run at hinit
  simp only [hlive, Bool.false_eq_true, if_false] at hinit
  split_ifs at hinit with h1 h2 h3 h4
  · simp only [Option.some.injEq] at hinit
    rw [← hinit, if_pos h4]
  · simp only [Option.some.injEq] at hinit
    rw [← hinit, if_neg h4]

/-- C9. Role invariant. After `init_run` has returned true in live mode the
mode is TRN when a destination host is configured and RCV when it is empty;
and from there, whatever the socket and the clock deliver in whatever number of
ticks (run for as long as they return true, the first failing one included),
the mode of a client stays among TRN, WAI, FIX, SLP and the mode of a server
stays among RCV, REP. -/
theorem role_invariant (cfg : Config) (ie : InitEnv) (s0 s : State)
    (hlive : cfg.replay = false) (hinit : init_run cfg ie s0 = some s) :
    (cfg.m_host_dst ≠ "" → s.mode = e_mode.TRN) ∧
    (cfg.m_host_dst = "" → s.mode = e_mode.RCV) ∧
    (∀ envs : List Env, cfg.m_host_dst ≠ "" →
      (run cfg envs s).st.mode = e_mode.TRN ∨ (run cfg envs s).st.mode = e_mode.WAI ∨
      (run cfg envs s).st.mode = e_mode.FIX ∨ (run cfg envs s).st.mode = e_mode.SLP) ∧
    (∀ envs : List Env, cfg.m_host_dst = "" →
      (run cfg envs s).st.mode = e_mode.RCV ∨ (run cfg envs s).st.mode = e_mode.REP) := by
  have hl : ¬ (cfg.replay = true ∧ cfg.has_ch = true) := by simp [hlive]
  have hmode := init_run_live cfg ie s0 s hlive hinit
  refine ⟨?_, ?_, ?_, ?_⟩
  · intro h; rw [hmode, if_neg h]
  · intro h; rw [hmode, if_pos h]
  · intro envs h
    exact run_client_mode cfg hl envs s (Or.inl (by rw [hmode, if_neg h]))
  · intro envs h
    exact run_server_mode cfg hl envs s (Or.inl (by rw [hmode, if_pos h]))

/-- Witness of C9: the sample client starts in TRN. -/
theorem role_invariant_witness :
    init_run sampleClient sampleInit (sampleState sampleClient e_mode.RCV)
      = some (sampleState sampleClient e_mode.TRN) ∧
    (sampleState sampleClient e_mode.TRN).mode = e_mode.TRN :=
  ⟨by decide,
    (role_invariant sampleClient sampleInit (sampleState sampleClient e_mode.RCV)
      (sampleState sampleClient e_mode.TRN) rfl (by decide)).1 (by decide)⟩

/-! ## The branches of the WAI tick -/

/-- Datagrams with a foreign id are passed over: the loop goes on with the
error counter raised by their number, and only the buffer and the remembered
source differ. -/
theorem stwai_loop_skip (cfg : Config) (env : Env) (pre : List (List Byte × Addr))
    (tl : List SockEvent) (count : Nat) (s : State)
    (h : ∀ x ∈ pre, 44 ≤ x.1.length ∧ (s_tpkt.unpack x.1).id ≠ s.m_trpkt.id) :
    ∃ s2 : State, s2.mode = s.mode ∧ s2.m_trpkt = s.m_trpkt ∧
      s2.m_tnext_adj = s.m_tnext_adj ∧ s2.m_rcv_wait_count = s.m_rcv_wait_count ∧
      s2.log = s.log ∧
      stwai_loop cfg env (pre.map (fun x => SockEvent.recv x.1 x.2) ++ tl) count s =
        stwai_loop cfg env tl (count + pre.length) s2 := by
  induction pre generalizing count s with
  | nil => exact ⟨s, rfl, rfl, rfl, rfl, rfl, rfl⟩
  | cons x rest ih =>
    obtain ⟨hlen, hid⟩ := h x (List.mem_cons_self _ _)
    obtain ⟨s2, h1, h2, h3, h4, h5, h6⟩ := ih (count + 1)
      { s with m_trbuf := recvfrom cfg s.m_trbuf x.1, m_sock_addr_rep := x.2 }
      (fun y hy => h y (List.mem_cons_of_mem _ hy))
    refine ⟨s2, h1, h2, h3, h4, h5, ?_⟩
    simp only [List.map_cons, List.cons_append, stwai_loop, unpack_recvfrom cfg _ _ hlen,
      if_neg hid, List.length_cons]
    have e : count + (rest.length + 1) = count + 1 + rest.length := by omega
    rw [e]
    exact h6

/-- A datagram with the pending id leaves the loop through `stwai_match`. -/
theorem stwai_loop_recv_match (cfg : Config) (env : Env) (d : List Byte) (src : Addr)
    (rest : List SockEvent) (count : Nat) (s : State)
    (hlen : 44 ≤ d.length) (hid : (s_tpkt.unpack d).id = s.m_trpkt.id) :
    stwai_loop cfg env (SockEvent.recv d src :: rest) count s =
      { ok := true
        st := stwai_match env count (s_tpkt.unpack d)
          { s with m_trbuf := recvfrom cfg s.m_trbuf d, m_sock_addr_rep := src }
        out := Out.none } := by
  simp only [stwai_loop, unpack_recvfrom cfg _ _ hlen, if_pos hid]

/-- C12. WAI, accepted reply. In a WAI tick of a live filter that, after any
number of datagrams with a foreign id, receives a datagram (at least 44 octets)
with the pending id and `del = 0`: the tick returns true; `ts1` and `ts2` of
the pending packet become those of the reply, `tc2` becomes `get_time()`, `id`
and `tc1` (and `del`) stay; the mode is FIX when no foreign datagram came
before in the tick and TRN when at least one did; nothing is sent or handed
over, and the wait counter and the deadline stay. -/
theorem stwai_accepted_reply (cfg : Config) (env : Env) (s : State)
    (pre : List (List Byte × Addr)) (d : List Byte) (src : Addr) (rest : List SockEvent)
    (hlive : ¬ (cfg.replay = true ∧ cfg.has_ch = true)) (hm : s.mode = e_mode.WAI)
    (hpre : ∀ x ∈ pre, 44 ≤ x.1.length ∧ (s_tpkt.unpack x.1).id ≠ s.m_trpkt.id)
    (hev : env.events = pre.map (fun x => SockEvent.recv x.1 x.2) ++ SockEvent.recv d src :: rest)
    (hlen : 44 ≤ d.length) (hid : (s_tpkt.unpack d).id = s.m_trpkt.id)
    (hdel : (s_tpkt.unpack d).del = 0) :
    (proc cfg env s).ok = true ∧
    (proc cfg env s).st.m_trpkt.ts1 = (s_tpkt.unpack d).ts1 ∧
    (proc cfg env s).st.m_trpkt.ts2 = (s_tpkt.unpack d).ts2 ∧
    (proc cfg env s).st.m_trpkt.tc2 = env.time ∧
    (proc cfg env s).st.m_trpkt.id = s.m_trpkt.id ∧
    (proc cfg env s).st.m_trpkt.tc1 = s.m_trpkt.tc1 ∧
    (proc cfg env s).st.m_trpkt.del = s.m_trpkt.del ∧
    (pre = [] → (proc cfg env s).st.mode = e_mode.FIX) ∧
    (pre ≠ [] → (proc cfg env s).st.mode = e_mode.TRN) ∧
    (proc cfg env s).out = Out.none ∧
    (proc cfg env s).st.m_rcv_wait_count = s.m_rcv_wait_count ∧
    (proc cfg env s).st.m_tnext_adj = s.m_tnext_adj := by
  rw [proc_wai cfg env s hlive hm]
  unfold stwai
  rw [hev]
  obtain ⟨s2, -, h2, h3, h4, -, h6⟩ :=
    stwai_loop_skip cfg env pre (SockEvent.recv d src :: rest) 0 s hpre
  rw [h6, stwai_loop_recv_match cfg env d src rest _ s2 hlen (by rw [h2]; exact hid)]
  simp only [stwai_match, hdel, ne_eq, not_true_eq_false, if_false, h2, h3, h4, Nat.zero_add,
    true_and, and_true]
  constructor
  · intro hp
    rw [hp]
    rfl
  · intro hp
    have hl : pre.length ≠ 0 := fun h0 => hp (List.length_eq_zero.mp h0)
    rw [if_neg hl]

/-- Witness of C12: the sample client receives the reply to its request. -/
theorem stwai_accepted_reply_witness :
    (s_tpkt.unpack sampleReply).id = (sampleWaiting 1).m_trpkt.id ∧
    (proc sampleClient (sampleEnv 220 [SockEvent.recv sampleReply 1])
      (sampleWaiting 1)).st.mode = e_mode.FIX :=
  ⟨by decide,
    (stwai_accepted_reply sampleClient (sampleEnv 220 [SockEvent.recv sampleReply 1])
      (sampleWaiting 1) [] sampleReply 1 [] (by decide) rfl
      (by intro x hx; simp at hx) rfl (by decide) (by decide) (by decide)).2.2.2.2.2.2.2.1 rfl⟩

/-- Counterexample to C13 as stated: with `MaxWaitCount = 2` and the counter
at 0, a WAI tick that discards one datagram with a foreign id and then times
out ends in TRN with the counter still 0, not in WAI with the counter at 1. -/
theorem stwai_timeout_rule_counterexample :
    (sampleWaiting 0).mode = e_mode.WAI ∧
    (sampleWaiting 0).m_rcv_wait_count < sampleClient.m_max_rcv_wait_count ∧
    (s_tpkt.unpack sampleForeign).id ≠ (sampleWaiting 0).m_trpkt.id ∧
    (proc sampleClient (sampleEnv 220 [SockEvent.recv sampleForeign 1, SockEvent.timeout])
      (sampleWaiting 0)).st.mode = e_mode.TRN ∧
    (proc sampleClient (sampleEnv 220 [SockEvent.recv sampleForeign 1, SockEvent.timeout])
      (sampleWaiting 0)).st.mode ≠ e_mode.WAI ∧
    (proc sampleClient (sampleEnv 220 [SockEvent.recv sampleForeign 1, SockEvent.timeout])
      (sampleWaiting 0)).st.m_rcv_wait_count = 0 := by
  decide

/-- C13, as the code has it. In a WAI tick of a live filter whose `select`
times out after any number of discarded datagrams with a foreign id: the tick
returns true, sends and hands over nothing and leaves the pending packet and
the deadline alone; if no such datagram was discarded in the tick and the wait
counter is below `MaxWaitCount`, the counter goes up by exactly one and the
mode stays WAI; otherwise (the counter is not below the maximum, or at least
one datagram with a foreign id was discarded in the tick) the mode becomes TRN
and the counter stays. -/
theorem stwai_timeout_rule (cfg : Config) (env : Env) (s : State)
    (pre : List (List Byte × Addr)) (tl : List SockEvent)
    (hlive : ¬ (cfg.replay = true ∧ cfg.has_ch = true)) (hm : s.mode = e_mode.WAI)
    (hpre : ∀ x ∈ pre, 44 ≤ x.1.length ∧ (s_tpkt.unpack x.1).id ≠ s.m_trpkt.id)
    (hev : env.events = pre.map (fun x => SockEvent.recv x.1 x.2) ++ tl)
    (htl : tl = [] ∨ ∃ rest, tl = SockEvent.timeout :: rest) :
    (proc cfg env s).ok = true ∧
    (proc cfg env s).out = Out.none ∧
    (proc cfg env s).st.m_trpkt = s.m_trpkt ∧
    (proc cfg env s).st.m_tnext_adj = s.m_tnext_adj ∧
    (pre = [] ∧ s.m_rcv_wait_count < cfg.m_max_rcv_wait_count →
      (proc cfg env s).st.mode = e_mode.WAI ∧
      (proc cfg env s).st.m_rcv_wait_count = s.m_rcv_wait_count + 1) ∧
    (¬ (pre = [] ∧ s.m_rcv_wait_count < cfg.m_max_rcv_wait_count) →
      (proc cfg env s).st.mode = e_mode.TRN ∧
      (proc cfg env s).st.m_rcv_wait_count = s.m_rcv_wait_count) := by
  rw [proc_wai cfg env s hlive hm]
  unfold stwai
  rw [hev]
  obtain ⟨s2, -, h2, h3, h4, -, h6⟩ := stwai_loop_skip cfg env pre tl 0 s hpre
  rw [h6]
  have hloop : stwai_loop cfg env tl (0 + pre.length) s2 =
      { ok := true, st := stwai_timeout cfg (0 + pre.length) s2, out := Out.none } := by
    rcases htl with h | ⟨rest, h⟩ <;> (rw [h]; rfl)
  rw [hloop]
  obtain ⟨t1, t2, -, t4⟩ := stwai_timeout_cases cfg (0 + pre.length) s2
  refine ⟨rfl, rfl, by rw [← h2]; exact t1, by rw [← h3]; exact t2, ?_, ?_⟩
  · rintro ⟨hp, hc⟩
    rcases t4 with ⟨a, b, -, -⟩ | ⟨-, -, c⟩
    · exact ⟨a, by rw [← h4]; exact b⟩
    · exfalso
      apply c
      refine ⟨by rw [h4]; exact hc, ?_⟩
      rw [hp]
      rfl
  · intro hn
    rcases t4 with ⟨-, -, c1, c2⟩ | ⟨a, b, -⟩
    · exfalso
      apply hn
      refine ⟨?_, by rw [← h4]; exact c1⟩
      apply List.length_eq_zero.mp
      omega
    · exact ⟨a, by rw [← h4]; exact b⟩

/-- Witness of the amended C13: a timeout with nothing discarded before it and
the counter below the maximum keeps the sample client in WAI. -/
theorem stwai_timeout_rule_witness :
    (sampleWaiting 1).m_rcv_wait_count < sampleClient.m_max_rcv_wait_count ∧
    (proc sampleClient (sampleEnv 220 []) (sampleWaiting 1)).st.mode = e_mode.WAI ∧
    (proc sampleClient (sampleEnv 220 []) (sampleWaiting 1)).st.m_rcv_wait_count = 2 :=
  ⟨by decide,
    (stwai_timeout_rule sampleClient (sampleEnv 220 []) (sampleWaiting 1) [] []
      (by decide) rfl (by intro x hx; simp at hx) rfl (Or.inl rfl)).2.2.2.2.1
      ⟨rfl, by decide⟩⟩

/-- C14. WAI, busy rejection. In a WAI tick of a live filter that, after any
number of datagrams with a foreign id, receives a datagram (at least 44 octets)
with the pending id and a `del` that is not 0, with `m_cur_time + del` inside
64 bits: the deadline `m_tnext_adj` becomes the current time `m_cur_time` plus
`del` and the mode becomes SLP, whatever the wait counter and the number of
foreign datagrams before; the tick returns true, nothing is handed to the
channel or sent, and the pending packet and the wait counter stay. -/
theorem stwai_busy_rejection (cfg : Config) (env : Env) (s : State)
    (pre : List (List Byte × Addr)) (d : List Byte) (src : Addr) (rest : List SockEvent)
    (hlive : ¬ (cfg.replay = true ∧ cfg.has_ch = true)) (hm : s.mode = e_mode.WAI)
    (hpre : ∀ x ∈ pre, 44 ≤ x.1.length ∧ (s_tpkt.unpack x.1).id ≠ s.m_trpkt.id)
    (hev : env.events = pre.map (fun x => SockEvent.recv x.1 x.2) ++ SockEvent.recv d src :: rest)
    (hlen : 44 ≤ d.length) (hid : (s_tpkt.unpack d).id = s.m_trpkt.id)
    (hdel : (s_tpkt.unpack d).del ≠ 0)
    (hov : inI64 (env.cur_time + (s_tpkt.unpack d).del)) :
    (proc cfg env s).ok = true ∧
    (proc cfg env s).st.mode = e_mode.SLP ∧
    (proc cfg env s).st.m_tnext_adj = env.cur_time + (s_tpkt.unpack d).del ∧
    (env.cur_time = env.time →
      (proc cfg env s).st.m_tnext_adj = env.time + (s_tpkt.unpack d).del) ∧
    (proc cfg env s).out.delta = [] ∧
    (proc cfg env s).out.sent = [] ∧
    (proc cfg env s).st.m_trpkt = s.m_trpkt ∧
    (proc cfg env s).st.m_rcv_wait_count = s.m_rcv_wait_count := by
  rw [proc_wai cfg env s hlive hm]
  unfold stwai
  rw [hev]
  obtain ⟨s2, -, h2, -, h4, -, h6⟩ :=
    stwai_loop_skip cfg env pre (SockEvent.recv d src :: rest) 0 s hpre
  rw [h6, stwai_loop_recv_match cfg env d src rest _ s2 hlen (by rw [h2]; exact hid)]
  simp only [stwai_match, hdel, ne_eq, not_false_eq_true, if_true, h2, h4,
    wrap64_of_inI64 _ hov, Out.none, true_and, and_true]
  intro h
  rw [h]

/-- Witness of C14: the sample client is told to wait 30 seconds. -/
theorem stwai_busy_rejection_witness :
    (s_tpkt.unpack sampleBusy).del ≠ 0 ∧
    (proc sampleClient (sampleEnv 220 [SockEvent.recv sampleBusy 1])
      (sampleWaiting 1)).st.m_tnext_adj = 220 + 300000000 :=
  ⟨by decide,
    (stwai_busy_rejection sampleClient (sampleEnv 220 [SockEvent.recv sampleBusy 1])
      (sampleWaiting 1) [] sampleBusy 1 [] (by decide) rfl
      (by intro x hx; simp at hx) rfl (by decide) (by decide) (by decide) (by decide)).2.2.1⟩

/-! ## The TRN tick and the FIX tick -/

/-- C15. TRN step. Whatever the fields held before, a TRN tick of a live filter
(clock value inside 64 bits) returns true, makes exactly one `sendto` call,
to `m_sock_addr_snd`, whose datagram decodes to the packet with the id just
drawn, `tc1 = get_time()` and `ts1 = tc2 = ts2 = del = 0`; it keeps that packet
as the pending one, sets the wait counter to 0 and the mode to WAI, and hands
nothing to the channel. -/
theorem sttrn_step (cfg : Config) (env : Env) (s : State)
    (hlive : ¬ (cfg.replay = true ∧ cfg.has_ch = true)) (hm : s.mode = e_mode.TRN)
    (ht : inI64 env.time) :
    (proc cfg env s).ok = true ∧
    (∃ dg, (proc cfg env s).out.sent = [(dg, cfg.m_sock_addr_snd)] ∧
      s_tpkt.unpack dg = s_tpkt.mk (rand_id env) env.time 0 0 0 0 ∧
      (s_tpkt.unpack dg).id = rand_id env ∧ (s_tpkt.unpack dg).tc1 = env.time ∧
      (s_tpkt.unpack dg).ts1 = 0 ∧ (s_tpkt.unpack dg).tc2 = 0 ∧
      (s_tpkt.unpack dg).ts2 = 0 ∧ (s_tpkt.unpack dg).del = 0) ∧
    (proc cfg env s).st.m_trpkt = s_tpkt.mk (rand_id env) env.time 0 0 0 0 ∧
    (proc cfg env s).st.m_rcv_wait_count = 0 ∧
    (proc cfg env s).st.mode = e_mode.WAI ∧
    (proc cfg env s).out.delta = [] ∧
    (proc cfg env s).st.m_tnext_adj = s.m_tnext_adj := by
  rw [proc_trn cfg env s hlive hm]
  obtain ⟨tail, h1, h2, h3, h4, h5, h6, h7, -⟩ := sttrn_request cfg env s
  have hP : (s_tpkt.mk (rand_id env) env.time 0 0 0 0).valid :=
    ⟨rand_id_lt env, ht, inI64_zero, inI64_zero, inI64_zero, inI64_zero⟩
  have hu := unpack_wire_append _ hP tail
  refine ⟨h2, ⟨_, h1, hu, ?_⟩, h6, h5, h4, h3, h7⟩
  rw [hu]
  exact ⟨rfl, rfl, rfl, rfl, rfl, rfl⟩

/-- Witness of C15: the request of the sample client at time 100. -/
theorem sttrn_step_witness :
    (sampleState sampleClient e_mode.TRN).mode = e_mode.TRN ∧
    (proc sampleClient (sampleEnv 100 []) (sampleState sampleClient e_mode.TRN)).st.m_trpkt
      = s_tpkt.mk 65538 100 0 0 0 0 :=
  ⟨rfl,
    (sttrn_step sampleClient (sampleEnv 100 []) (sampleState sampleClient e_mode.TRN)
      (by decide) rfl (by decide)).2.2.1⟩

/-- C16. FIX step. For every pending packet, a FIX tick of a live filter (the
interval `m_adjust_intvl * SEC` and the clock plus the interval inside 64 bits)
returns true, sets the deadline to `get_time()` plus `m_adjust_intvl * SEC` and
the mode to SLP, and sends nothing. With a channel attached it hands exactly
one pair, `(get_time(), calc_delta())` of the pending packet, to the channel
and writes the same pair to the log; without one it hands over nothing and
writes nothing. -/
theorem stfix_step (cfg : Config) (env : Env) (s : State)
    (hlive : ¬ (cfg.replay = true ∧ cfg.has_ch = true)) (hm : s.mode = e_mode.FIX)
    (hi : inI64 (cfg.m_adjust_intvl * cfg.SEC))
    (hdl : inI64 (env.time + cfg.m_adjust_intvl * cfg.SEC)) :
    (proc cfg env s).ok = true ∧
    (proc cfg env s).st.m_tnext_adj = env.time + cfg.m_adjust_intvl * cfg.SEC ∧
    (proc cfg env s).st.mode = e_mode.SLP ∧
    (proc cfg env s).out.sent = [] ∧
    (proc cfg env s).st.m_trpkt = s.m_trpkt ∧
    (cfg.has_ch = true →
      (proc cfg env s).out.delta = [(env.time, s.m_trpkt.calc_delta)] ∧
      (proc cfg env s).st.log.written = s.log.written ++ [(env.time, s.m_trpkt.calc_delta)]) ∧
    (cfg.has_ch = false →
      (proc cfg env s).out.delta = [] ∧
      (proc cfg env s).st.log = s.log) := by
  rw [proc_fix cfg env s hlive hm]
  have hadj : wrap64 (env.time + adjTicks cfg) = env.time + cfg.m_adjust_intvl * cfg.SEC := by
    unfold adjTicks
    rw [wrap64_of_inI64 _ hi, wrap64_of_inI64 _ hdl]
  unfold stfix
  rw [hadj]
  cases hc : cfg.has_ch
  · simp [Out.none]
  · simp [c_log.write]

/-- Witness of C16: the sample client fixes `(230, -5)` and sleeps until
`230 + 10 * SEC`. -/
theorem stfix_step_witness :
    sampleFixing.mode = e_mode.FIX ∧
    (proc sampleClient (sampleEnv 230 []) sampleFixing).out.delta = [(230, -5)] ∧
    (proc sampleClient (sampleEnv 230 []) sampleFixing).st.m_tnext_adj = 230 + 10 * 10000000 :=
  ⟨rfl,
    ((stfix_step sampleClient (sampleEnv 230 []) sampleFixing (by decide) rfl (by decide)
      (by decide)).2.2.2.2.2.1 rfl).1,
    (stfix_step sampleClient (sampleEnv 230 []) sampleFixing (by decide) rfl (by decide)
      (by decide)).2.1⟩

/-- C18. Symmetric delay. For a packet stamped with `ts1 = tc1 + d + to`,
`ts2 = ts1 + p` and `tc2 = ts2 + d - to` (one-way delay `d`, clock offset `to`,
processing time `p`, no jitter), with `d + to`, `d - to` and `2 * to` inside 64
bits, `calc_delta` returns exactly `to`, whatever `d` and `p` are. -/
theorem calc_delta_symmetric (pk : s_tpkt) (d o p : Int)
    (hs1 : pk.ts1 = pk.tc1 + d + o) (_hs2 : pk.ts2 = pk.ts1 + p)
    (hc2 : pk.tc2 = pk.ts2 + d - o)
    (h1 : inI64 (d + o)) (h2 : inI64 (d - o)) (h3 : inI64 (2 * o)) :
    pk.calc_delta = o := by
  have e1 : pk.ts1 - pk.tc1 = d + o := by rw [hs1]; ring
  have e2 : pk.tc2 - pk.ts2 = d - o := by rw [hc2]; ring
  have e3 : (pk.ts1 - pk.tc1) - (pk.tc2 - pk.ts2) = 2 * o := by rw [e1, e2]; ring
  rw [calc_delta_eq pk (by rw [e1]; exact h1) (by rw [e2]; exact h2) (by rw [e3]; exact h3), e3]
  exact Int.mul_tdiv_cancel_left o (by norm_num)

/-- Witness of C18: send at 1000, delay 40, offset -7, processing 15. -/
theorem calc_delta_symmetric_witness :
    (s_tpkt.mk 1 1000 1033 1048 1095 0).ts1 = (s_tpkt.mk 1 1000 1033 1048 1095 0).tc1 + 40 + (-7) ∧
    (s_tpkt.mk 1 1000 1033 1048 1095 0).calc_delta = -7 :=
  ⟨by decide,
    calc_delta_symmetric (s_tpkt.mk 1 1000 1033 1048 1095 0) 40 (-7) 15
      (by decide) (by decide) (by decide) (by decide) (by decide) (by decide)⟩

/-! ## The service round of a server -/

/-- The fields after an RCV tick that received the datagram `d` from `a`, up
to the scratch buffer. -/
theorem strcv_recv_fields (cfg : Config) (env : Env) (s : State) (d : List Byte) (a : Addr)
    (rest : List SockEvent) (hlen : 44 ≤ d.length)
    (he : env.events = SockEvent.recv d a :: rest) :
    strcv cfg env s = clearpkts cfg rest
      { s with
        m_trbuf := recvfrom cfg s.m_trbuf d, m_sock_addr_rep := a
        m_trpkt := { s_tpkt.unpack d with ts1 := env.time }
        mode := e_mode.REP } := by
  unfold strcv
  rw [he]
  simp only [unpack_recvfrom cfg _ _ hlen]

/-- A request taken in by an RCV tick is the one the next REP tick answers,
whatever the drain pass of the RCV tick met. -/
theorem rcv_then_rep (cfg : Config) (e1 e2 : Env) (s : State) (d : List Byte) (a : Addr)
    (rest : List SockEvent)
    (hlive : ¬ (cfg.replay = true ∧ cfg.has_ch = true)) (hm : s.mode = e_mode.RCV)
    (hlen : 44 ≤ d.length) (he : e1.events = SockEvent.recv d a :: rest)
    (ht1 : inI64 e1.time) (ht2 : inI64 e2.time) :
    (proc cfg e1 s).st.mode = e_mode.REP ∧
    (proc cfg e1 s).st.m_trpkt = { s_tpkt.unpack d with ts1 := e1.time } ∧
    (proc cfg e1 s).st.m_sock_addr_rep = a ∧
    (∃ dg more, (proc cfg e2 (proc cfg e1 s).st).out.sent = (dg, a) :: more ∧
      s_tpkt.unpack dg = { s_tpkt.unpack d with ts1 := e1.time, ts2 := e2.time, del := 0 }) ∧
    (proc cfg e2 (proc cfg e1 s).st).st.mode = e_mode.RCV := by
  have h1 : proc cfg e1 s = _ :=
    (proc_rcv cfg e1 s hlive hm).trans (strcv_recv_fields cfg e1 s d a rest hlen he)
  obtain ⟨f1, f2, f3, -⟩ := clearpkts_loop_frame cfg rest (adjTicksInt cfg)
    { s with
      m_trbuf := recvfrom cfg s.m_trbuf d, m_sock_addr_rep := a
      m_trpkt := { s_tpkt.unpack d with ts1 := e1.time }
      mode := e_mode.REP }
  have hmode : (proc cfg e1 s).st.mode = e_mode.REP := by rw [h1]; exact f1
  have hpkt : (proc cfg e1 s).st.m_trpkt = { s_tpkt.unpack d with ts1 := e1.time } := by
    rw [h1]; exact f2
  have haddr : (proc cfg e1 s).st.m_sock_addr_rep = a := by rw [h1]; exact f3
  obtain ⟨tail, more, hs, hr⟩ := strep_reply cfg e2 (proc cfg e1 s).st
  rw [← proc_rep cfg e2 _ hlive hmode] at hs hr
  rw [hpkt, haddr] at hs
  have hv : ({ s_tpkt.unpack d with ts1 := e1.time, ts2 := e2.time, del := 0 } : s_tpkt).valid := by
    obtain ⟨v0, v1, -, -, v4, -⟩ := unpack_valid d
    exact ⟨v0, v1, ht1, ht2, v4, inI64_zero⟩
  exact ⟨hmode, hpkt, haddr, ⟨_, more, hs, unpack_wire_append _ hv tail⟩, hr⟩

/-- C17. Service round of a server. When an RCV tick at `e1.time` receives a
request datagram `d` (at least 44 octets) from the address `a`, the mode
becomes REP, and the following REP tick, at `e2.time`, first sends to `a` a
datagram that decodes to the decoded request with `ts1 = e1.time`,
`ts2 = e2.time` and `del = 0` (`id`, `tc1`, `tc2` as received), and the mode is
RCV again; an RCV tick whose `select` times out leaves the mode RCV. Both
ticks end with the drain pass: the RCV tick is the drain pass run on the
remaining `select` results, and the result and further `sendto` calls of the
REP tick are those of the drain pass. -/
theorem responder_round (cfg : Config) (e1 e2 : Env) (s : State) (d : List Byte) (a : Addr)
    (rest : List SockEvent)
    (hlive : ¬ (cfg.replay = true ∧ cfg.has_ch = true)) (hm : s.mode = e_mode.RCV)
    (hlen : 44 ≤ d.length) (he : e1.events = SockEvent.recv d a :: rest)
    (ht1 : inI64 e1.time) (ht2 : inI64 e2.time) :
    (proc cfg e1 s).st.mode = e_mode.REP ∧
    (∃ dg more, (proc cfg e2 (proc cfg e1 s).st).out.sent = (dg, a) :: more ∧
      s_tpkt.unpack dg = { s_tpkt.unpack d with ts1 := e1.time, ts2 := e2.time, del := 0 } ∧
      (s_tpkt.unpack dg).id = (s_tpkt.unpack d).id ∧
      (s_tpkt.unpack dg).tc1 = (s_tpkt.unpack d).tc1 ∧
      (s_tpkt.unpack dg).tc2 = (s_tpkt.unpack d).tc2) ∧
    (proc cfg e2 (proc cfg e1 s).st).st.mode = e_mode.RCV ∧
    (∀ (e0 : Env) (s0 : State), s0.mode = e_mode.RCV →
      (e0.events = [] ∨ ∃ r0, e0.events = SockEvent.timeout :: r0) →
      (proc cfg e0 s0).st.mode = e_mode.RCV ∧
      proc cfg e0 s0 = clearpkts cfg e0.events.tail s0) ∧
    proc cfg e1 s = clearpkts cfg rest
      { s with
        m_trbuf := recvfrom cfg s.m_trbuf d, m_sock_addr_rep := a
        m_trpkt := { s_tpkt.unpack d with ts1 := e1.time }
        mode := e_mode.REP } ∧
    (∀ (s2 : State), s2.mode = e_mode.REP →
      (proc cfg e2 s2).ok = (clearpkts cfg e2.events
        { s2 with
          m_trpkt := { s2.m_trpkt with ts2 := e2.time, del := 0 }
          m_trbuf := ({ s2.m_trpkt with ts2 := e2.time, del := 0 } : s_tpkt).pack s2.m_trbuf
          mode := e_mode.RCV }).ok ∧
      (proc cfg e2 s2).out.sent.tail = (clearpkts cfg e2.events
        { s2 with
          m_trpkt := { s2.m_trpkt with ts2 := e2.time, del := 0 }
          m_trbuf := ({ s2.m_trpkt with ts2 := e2.time, del := 0 } : s_tpkt).pack s2.m_trbuf
          mode := e_mode.RCV }).out.sent) := by
  obtain ⟨r1, -, -, ⟨dg, more, r4, r5⟩, r6⟩ := rcv_then_rep cfg e1 e2 s d a rest hlive hm hlen he
    ht1 ht2
  refine ⟨r1, ⟨dg, more, r4, r5, by rw [r5], by rw [r5], by rw [r5]⟩, r6, ?_,
    (proc_rcv cfg e1 s hlive hm).trans (strcv_recv_fields cfg e1 s d a rest hlen he), ?_⟩
  · intro e0 s0 hm0 h0
    rw [proc_rcv cfg e0 s0 hlive hm0]
    have hq : strcv cfg e0 s0 = clearpkts cfg e0.events.tail s0 := by
      unfold strcv
      rcases h0 with h | ⟨r0, h⟩ <;> (rw [h]; rfl)
    rw [hq, clearpkts, (clearpkts_loop_frame cfg _ _ _).1]
    exact ⟨hm0, rfl⟩
  · intro s2 hm2
    rw [proc_rep cfg e2 s2 hlive hm2]
    exact ⟨rfl, rfl⟩

/-- Witness of C17: the sample server answers the request of the sample
client, received at 150 from the address 9, at 160. -/
theorem responder_round_witness :
    (sampleState sampleServer e_mode.RCV).mode = e_mode.RCV ∧
    (∃ dg more, (proc sampleServer (sampleEnv 160 [])
        (proc sampleServer (sampleEnv 150 [SockEvent.recv sampleRequest 9])
          (sampleState sampleServer e_mode.RCV)).st).out.sent = (dg, 9) :: more ∧
      s_tpkt.unpack dg = s_tpkt.mk 65538 100 150 160 0 0) :=
  ⟨rfl,
    match (responder_round sampleServer (sampleEnv 150 [SockEvent.recv sampleRequest 9])
        (sampleEnv 160 []) (sampleState sampleServer e_mode.RCV) sampleRequest 9 []
        (by decide) rfl (by decide) rfl (by decide) (by decide)).2.1 with
    | ⟨dg, more, h1, h2, _⟩ => ⟨dg, more, h1, h2⟩⟩

/-! ## The frame of the drain pass -/

/-- The fields after a drain pass are the fields before it with another
scratch buffer. -/
theorem clearpkts_loop_st (cfg : Config) (evs : List SockEvent) (del : Int) (s : State) :
    ∃ buf, (clearpkts_loop cfg evs del s).st = { s with m_trbuf := buf } := by
  induction evs generalizing del s with
  | nil => exact ⟨s.m_trbuf, rfl⟩
  | cons e rest ih =>
    cases e with
    | recv d src =>
      obtain ⟨buf, h⟩ := ih (wrap64 (del + adjTicksInt cfg))
        { s with m_trbuf := ({ s_tpkt.unpack (recvfrom cfg s.m_trbuf d) with del := del } :
          s_tpkt).pack (recvfrom cfg s.m_trbuf d) }
      exact ⟨buf, by simp only [clearpkts_loop]; rw [h]⟩
    | recvFail => exact ⟨s.m_trbuf, rfl⟩
    | except => exact ⟨s.m_trbuf, rfl⟩
    | unknown => exact ⟨s.m_trbuf, rfl⟩
    | timeout => exact ⟨s.m_trbuf, rfl⟩

/-- C19. Frame of the drain pass. Whatever the `select` calls of a drain pass
report, the pass (successful or not) leaves the mode, the pending packet, the
remembered reply address, the wait counter, the deadline and the log as they
were and hands nothing to the channel: the fields afterwards are the fields
before with another scratch buffer. So a request that an RCV tick took in from
the address `a` is the one the next REP tick answers, to `a`, whatever the
drain pass of the RCV tick met after it (other requests, which it rejects). -/
theorem drain_pass_frame (cfg : Config) (evs : List SockEvent) (s : State) :
    (clearpkts cfg evs s).st.mode = s.mode ∧
    (clearpkts cfg evs s).st.m_trpkt = s.m_trpkt ∧
    (clearpkts cfg evs s).st.m_sock_addr_rep = s.m_sock_addr_rep ∧
    (clearpkts cfg evs s).st.m_rcv_wait_count = s.m_rcv_wait_count ∧
    (clearpkts cfg evs s).st.m_tnext_adj = s.m_tnext_adj ∧
    (clearpkts cfg evs s).st.log = s.log ∧
    (clearpkts cfg evs s).out.delta = [] ∧
    (∃ buf, (clearpkts cfg evs s).st = { s with m_trbuf := buf }) ∧
    (∀ (e1 e2 : Env) (d : List Byte) (a : Addr),
      ¬ (cfg.replay = true ∧ cfg.has_ch = true) → s.mode = e_mode.RCV →
      44 ≤ d.length → e1.events = SockEvent.recv d a :: evs →
      inI64 e1.time → inI64 e2.time →
      (proc cfg e1 s).st.m_trpkt = { s_tpkt.unpack d with ts1 := e1.time } ∧
      (proc cfg e1 s).st.m_sock_addr_rep = a ∧
      ∃ dg more, (proc cfg e2 (proc cfg e1 s).st).out.sent = (dg, a) :: more ∧
        s_tpkt.unpack dg =
          { s_tpkt.unpack d with ts1 := e1.time, ts2 := e2.time, del := 0 }) := by
  obtain ⟨f1, f2, f3, f4, f5, f6, f7⟩ := clearpkts_loop_frame cfg evs (adjTicksInt cfg) s
  refine ⟨f1, f2, f3, f5, f4, f6, f7, clearpkts_loop_st cfg evs (adjTicksInt cfg) s, ?_⟩
  intro e1 e2 d a hlive hm hlen he ht1 ht2
  obtain ⟨-, r2, r3, r4, -⟩ := rcv_then_rep cfg e1 e2 s d a evs hlive hm hlen he ht1 ht2
  exact ⟨r2, r3, r4⟩

/-- Witness of C19: the sample server takes in the request of the sample
client from the address 9 and rejects the two requests queued behind it; the
next tick answers the address 9 with the id `65538`. -/
theorem drain_pass_frame_witness :
    (sampleState sampleServer e_mode.RCV).mode = e_mode.RCV ∧
    (∃ dg more, (proc sampleServer (sampleEnv 160 [])
        (proc sampleServer (sampleEnv 150 (SockEvent.recv sampleRequest 9 :: sampleQueued))
          (sampleState sampleServer e_mode.RCV)).st).out.sent = (dg, 9) :: more ∧
      s_tpkt.unpack dg = s_tpkt.mk 65538 100 150 160 0 0) :=
  ⟨rfl,
    ((drain_pass_frame sampleServer sampleQueued
      (sampleState sampleServer e_mode.RCV)).2.2.2.2.2.2.2.2
      (sampleEnv 150 (SockEvent.recv sampleRequest 9 :: sampleQueued))
      (sampleEnv 160 []) sampleRequest 9 (by decide) rfl (by decide) rfl (by decide)
      (by decide)).2.2⟩

/-! ## The wait counter -/

/-- The loop of `stwai` either leaves the wait counter alone or, through the
timeout branch below the maximum, raises it by one and stays in WAI. -/
theorem stwai_loop_count (cfg : Config) (env : Env) (evs : List SockEvent) (count : Nat)
    (s : State) :
    (stwai_loop cfg env evs count s).st.m_rcv_wait_count = s.m_rcv_wait_count ∨
    ((stwai_loop cfg env evs count s).st.m_rcv_wait_count = s.m_rcv_wait_count + 1 ∧
      s.m_rcv_wait_count < cfg.m_max_rcv_wait_count ∧
      (stwai_loop cfg env evs count s).st.mode = e_mode.WAI ∧
      (stwai_loop cfg env evs count s).ok = true) := by
  have htime : ∀ (c : Nat) (s2 : State),
      (stwai_timeout cfg c s2).m_rcv_wait_count = s2.m_rcv_wait_count ∨
      ((stwai_timeout cfg c s2).m_rcv_wait_count = s2.m_rcv_wait_count + 1 ∧
        s2.m_rcv_wait_count < cfg.m_max_rcv_wait_count ∧
        (stwai_timeout cfg c s2).mode = e_mode.WAI) := by
    intro c s2
    rcases (stwai_timeout_cases cfg c s2).2.2.2 with ⟨a, b, c1, -⟩ | ⟨-, b, -⟩
    · exact Or.inr ⟨b, c1, a⟩
    · exact Or.inl b
  have hmatch : ∀ (c : Nat) (r : s_tpkt) (s2 : State),
      (stwai_match env c r s2).m_rcv_wait_count = s2.m_rcv_wait_count := by
    intro c r s2
    unfold stwai_match
    split_ifs <;> rfl
  induction evs generalizing count s with
  | nil =>
    rcases htime count s with a | ⟨a, b, c⟩
    · exact Or.inl a
    · exact Or.inr ⟨a, b, c, rfl⟩
  | cons e rest ih =>
    cases e with
    | timeout =>
      rcases htime count s with a | ⟨a, b, c⟩
      · exact Or.inl a
      · exact Or.inr ⟨a, b, c, rfl⟩
    | except => exact Or.inl rfl
    | unknown => exact Or.inl rfl
    | recv d src =>
      simp only [stwai_loop]
      split_ifs
      · exact Or.inl (hmatch _ _ _)
      · exact ih (count + 1) { s with m_trbuf := recvfrom cfg s.m_trbuf d, m_sock_addr_rep := src }
    | recvFail =>
      simp only [stwai_loop]
      split_ifs
      · exact Or.inl (hmatch _ _ _)
      · exact ih (count + 1) s

/-- How one tick of a live filter changes the wait counter. -/
theorem proc_count (cfg : Config) (env : Env) (s : State)
    (hlive : ¬ (cfg.replay = true ∧ cfg.has_ch = true)) :
    (proc cfg env s).st.m_rcv_wait_count = s.m_rcv_wait_count ∨
    (s.mode = e_mode.TRN ∧ (proc cfg env s).st.m_rcv_wait_count = 0) ∨
    (s.mode = e_mode.WAI ∧ s.m_rcv_wait_count < cfg.m_max_rcv_wait_count ∧
      (proc cfg env s).st.m_rcv_wait_count = s.m_rcv_wait_count + 1 ∧
      (proc cfg env s).st.mode = e_mode.WAI ∧ (proc cfg env s).ok = true) := by
  cases hm : s.mode with
  | TRN =>
    rw [proc_trn cfg env s hlive hm]
    exact Or.inr (Or.inl ⟨rfl, rfl⟩)
  | WAI =>
    rw [proc_wai cfg env s hlive hm]
    rcases stwai_loop_count cfg env env.events 0 s with a | ⟨a, b, c, d⟩
    · exact Or.inl a
    · exact Or.inr (Or.inr ⟨rfl, b, a, c, d⟩)
  | RCV =>
    rw [proc_rcv cfg env s hlive hm]
    left
    unfold strcv
    split
    · rw [clearpkts, (clearpkts_loop_frame cfg _ _ _).2.2.2.2.1]
    · rw [clearpkts, (clearpkts_loop_frame cfg _ _ _).2.2.2.2.1]
    · rfl
    · rfl
    · rw [clearpkts, (clearpkts_loop_frame cfg _ _ _).2.2.2.2.1]
    · rw [clearpkts, (clearpkts_loop_frame cfg _ _ _).2.2.2.2.1]
  | REP =>
    rw [proc_rep cfg env s hlive hm]
    left
    simp only [strep, clearpkts]
    rw [(clearpkts_loop_frame cfg _ _ _).2.2.2.2.1]
  | FIX =>
    rw [proc_fix cfg env s hlive hm]
    left
    unfold stfix
    split_ifs <;> rfl
  | SLP =>
    rw [proc_slp cfg env s hlive hm]
    left
    unfold stslp
    split_ifs <;> rfl

/-- From a state with the counter between 0 and the maximum, every run of
ticks keeps it there. -/
theorem run_count_bound (cfg : Config) (hlive : ¬ (cfg.replay = true ∧ cfg.has_ch = true))
    (hN : 0 ≤ cfg.m_max_rcv_wait_count) (envs : List Env) (s : State)
    (h0 : 0 ≤ s.m_rcv_wait_count) (h1 : s.m_rcv_wait_count ≤ cfg.m_max_rcv_wait_count) :
    0 ≤ (run cfg envs s).st.m_rcv_wait_count ∧
    (run cfg envs s).st.m_rcv_wait_count ≤ cfg.m_max_rcv_wait_count := by
  induction envs generalizing s with
  | nil => exact ⟨h0, h1⟩
  | cons e rest ih =>
    have hp : 0 ≤ (proc cfg e s).st.m_rcv_wait_count ∧
        (proc cfg e s).st.m_rcv_wait_count ≤ cfg.m_max_rcv_wait_count := by
      rcases proc_count cfg e s hlive with a | ⟨-, a⟩ | ⟨-, b, a, -, -⟩
      · rw [a]; exact ⟨h0, h1⟩
      · rw [a]; exact ⟨le_refl _, hN⟩
      · rw [a]; constructor <;> omega
    simp only [run]
    split_ifs
    · exact ih _ hp.1 hp.2
    · exact hp

/-- C20. Bound of the wait counter. For a live filter with a maximum `N` that
is not negative: after a first tick in TRN, whatever the counter held before
and whatever ticks follow (run for as long as they return true), the wait
counter `c` satisfies `0 ≤ c ≤ N`. One tick changes the counter only in two
ways: a TRN tick sets it to 0, and a WAI tick raises it by exactly one, only
when `c < N`, staying in WAI (the timeout branch); every other tick leaves
it. -/
theorem wait_counter_bound (cfg : Config) (s : State) (e0 : Env) (envs : List Env)
    (hlive : ¬ (cfg.replay = true ∧ cfg.has_ch = true))
    (hN : 0 ≤ cfg.m_max_rcv_wait_count) (hm : s.mode = e_mode.TRN) :
    0 ≤ (run cfg (e0 :: envs) s).st.m_rcv_wait_count ∧
    (run cfg (e0 :: envs) s).st.m_rcv_wait_count ≤ cfg.m_max_rcv_wait_count ∧
    (∀ (env : Env) (st : State),
      (proc cfg env st).st.m_rcv_wait_count = st.m_rcv_wait_count ∨
      (st.mode = e_mode.TRN ∧ (proc cfg env st).st.m_rcv_wait_count = 0) ∨
      (st.mode = e_mode.WAI ∧ st.m_rcv_wait_count < cfg.m_max_rcv_wait_count ∧
        (proc cfg env st).st.m_rcv_wait_count = st.m_rcv_wait_count + 1 ∧
        (proc cfg env st).st.mode = e_mode.WAI ∧ (proc cfg env st).ok = true)) := by
  have hp : proc cfg e0 s = sttrn cfg e0 s := proc_trn cfg e0 s hlive hm
  have hb := run_count_bound cfg hlive hN envs (sttrn cfg e0 s).st (le_refl _) hN
  refine ⟨?_, ?_, fun env st => proc_count cfg env st hlive⟩
  · simp only [run, hp]
    exact hb.1
  · simp only [run, hp]
    exact hb.2

/-- Witness of C20: the sample client, its counter at 57 before the first
tick, after the TRN tick and three timeouts. -/
theorem wait_counter_bound_witness :
    (sampleState sampleClient e_mode.TRN).mode = e_mode.TRN ∧
    (run sampleClient (sampleEnv 100 [] :: [sampleEnv 110 [], sampleEnv 120 [], sampleEnv 130 []])
      { sampleState sampleClient e_mode.TRN with m_rcv_wait_count := 57 }).st.m_rcv_wait_count
        ≤ sampleClient.m_max_rcv_wait_count :=
  ⟨rfl,
    (wait_counter_bound sampleClient
      { sampleState sampleClient e_mode.TRN with m_rcv_wait_count := 57 } (sampleEnv 100 [])
      [sampleEnv 110 [], sampleEnv 120 [], sampleEnv 130 []] (by decide) (by decide) rfl).2.1⟩

/-! ## Transport failures -/

/-- A drain pass that meets a socket error, or a `recvfrom` that fails, after
any number of datagrams returns false. -/
theorem clearpkts_loop_fail (cfg : Config) (ds : List (List Byte × Addr)) (e : SockEvent)
    (rest : List SockEvent) (del : Int) (s : State)
    (he : e = SockEvent.except ∨ e = SockEvent.unknown ∨ e = SockEvent.recvFail) :
    (clearpkts_loop cfg (ds.map (fun x => SockEvent.recv x.1 x.2) ++ e :: rest) del s).ok
      = false := by
  induction ds generalizing del s with
  | nil => rcases he with h | h | h <;> (rw [h]; rfl)
  | cons x more ih =>
    have e0 : (x :: more).map (fun x => SockEvent.recv x.1 x.2) ++ e :: rest =
        SockEvent.recv x.1 x.2 :: (more.map (fun x => SockEvent.recv x.1 x.2) ++ e :: rest) := rfl
    rw [e0]
    simp only [clearpkts_loop]
    exact ih _ _

/-- The loop of `stwai` reads the clock and nothing else of its surroundings. -/
theorem stwai_loop_env (cfg : Config) (env1 env2 : Env) (evs : List SockEvent) (count : Nat)
    (s : State) (ht : env1.time = env2.time) (hc : env1.cur_time = env2.cur_time) :
    stwai_loop cfg env1 evs count s = stwai_loop cfg env2 evs count s := by
  have hmatch : ∀ (c : Nat) (r : s_tpkt) (s2 : State),
      stwai_match env1 c r s2 = stwai_match env2 c r s2 := by
    intro c r s2
    unfold stwai_match
    rw [ht, hc]
  induction evs generalizing count s with
  | nil => rfl
  | cons e rest ih =>
    cases e with
    | timeout => rfl
    | except => rfl
    | unknown => rfl
    | recv d src =>
      simp only [stwai_loop, hmatch]
      split_ifs
      · rfl
      · exact ih _ _
    | recvFail =>
      simp only [stwai_loop, hmatch]
      split_ifs
      · rfl
      · exact ih _ _

/-- Counterexample to C11 as stated: in a TRN tick in which `sendto` fails the
one `sendto` call is made and the tick still returns true. -/
theorem transport_failures_counterexample :
    sampleSendFails.sendto_ok = false ∧
    (sampleState sampleClient e_mode.TRN).mode = e_mode.TRN ∧
    (proc sampleClient sampleSendFails (sampleState sampleClient e_mode.TRN)).out.sent.length
      = 1 ∧
    (proc sampleClient sampleSendFails (sampleState sampleClient e_mode.TRN)).ok = true := by
  decide

/-- C11, as the code has it. In a tick of a live filter the transport failures
that the code looks at are fatal: a `select` that reports the socket in error
(in the exception set only, or ready in neither set) in WAI, also after
discarded datagrams with a foreign id, or in RCV, makes the tick return false;
so does such a `select`, or a `recvfrom` that returns `SOCKET_ERROR`, inside the
drain pass, and with it the RCV or REP tick that runs the pass. The result of
`sendto` is looked at nowhere: a tick returns the same, and leaves and sends
the same, whether its `sendto` calls fail or not, and a TRN tick always
returns true. -/
theorem transport_failures (cfg : Config) (env : Env) (s : State)
    (hlive : ¬ (cfg.replay = true ∧ cfg.has_ch = true)) :
    (s.mode = e_mode.WAI →
      ∀ (pre : List (List Byte × Addr)) (e : SockEvent) (rest : List SockEvent),
        (∀ x ∈ pre, 44 ≤ x.1.length ∧ (s_tpkt.unpack x.1).id ≠ s.m_trpkt.id) →
        env.events = pre.map (fun x => SockEvent.recv x.1 x.2) ++ e :: rest →
        (e = SockEvent.except ∨ e = SockEvent.unknown) →
        (proc cfg env s).ok = false) ∧
    (s.mode = e_mode.RCV →
      ∀ (e : SockEvent) (rest : List SockEvent), env.events = e :: rest →
        (e = SockEvent.except ∨ e = SockEvent.unknown) →
        (proc cfg env s).ok = false) ∧
    (∀ (ds : List (List Byte × Addr)) (e : SockEvent) (rest : List SockEvent),
      (e = SockEvent.except ∨ e = SockEvent.unknown ∨ e = SockEvent.recvFail) →
      (clearpkts cfg (ds.map (fun x => SockEvent.recv x.1 x.2) ++ e :: rest) s).ok = false) ∧
    (s.mode = e_mode.RCV →
      ∀ (e0 : SockEvent) (ds : List (List Byte × Addr)) (e : SockEvent) (rest : List SockEvent),
        env.events = e0 :: (ds.map (fun x => SockEvent.recv x.1 x.2) ++ e :: rest) →
        (e0 = SockEvent.timeout ∨ ∃ d a, e0 = SockEvent.recv d a) →
        (e = SockEvent.except ∨ e = SockEvent.unknown ∨ e = SockEvent.recvFail) →
        (proc cfg env s).ok = false) ∧
    (s.mode = e_mode.REP →
      ∀ (ds : List (List Byte × Addr)) (e : SockEvent) (rest : List SockEvent),
        env.events = ds.map (fun x => SockEvent.recv x.1 x.2) ++ e :: rest →
        (e = SockEvent.except ∨ e = SockEvent.unknown ∨ e = SockEvent.recvFail) →
        (proc cfg env s).ok = false) ∧
    (∀ b : Bool, proc cfg { env with sendto_ok := b } s = proc cfg env s) ∧
    (s.mode = e_mode.TRN → (proc cfg env s).ok = true) := by
  refine ⟨?_, ?_, ?_, ?_, ?_, ?_, ?_⟩
  · intro hm pre e rest hpre hev he
    rw [proc_wai cfg env s hlive hm]
    unfold stwai
    rw [hev]
    obtain ⟨s2, -, -, -, -, -, h6⟩ := stwai_loop_skip cfg env pre (e :: rest) 0 s hpre
    rw [h6]
    rcases he with h | h <;> (rw [h]; rfl)
  · intro hm e rest hev he
    rw [proc_rcv cfg env s hlive hm]
    unfold strcv
    rw [hev]
    rcases he with h | h <;> (rw [h])
  · intro ds e rest he
    exact clearpkts_loop_fail cfg ds e rest _ s he
  · intro hm e0 ds e rest hev he0 he
    rw [proc_rcv cfg env s hlive hm]
    unfold strcv
    rw [hev]
    rcases he0 with h | ⟨d, a, h⟩
    · rw [h]
      exact clearpkts_loop_fail cfg ds e rest _ _ he
    · rw [h]
      exact clearpkts_loop_fail cfg ds e rest _ _ he
  · intro hm ds e rest hev he
    rw [proc_rep cfg env s hlive hm]
    unfold strep
    rw [hev]
    exact clearpkts_loop_fail cfg ds e rest _ _ he
  · intro b
    cases hm : s.mode with
    | TRN => rw [proc_trn cfg _ s hlive hm, proc_trn cfg env s hlive hm]; rfl
    | WAI =>
      rw [proc_wai cfg _ s hlive hm, proc_wai cfg env s hlive hm]
      exact stwai_loop_env cfg _ env env.events 0 s rfl rfl
    | RCV => rw [proc_rcv cfg _ s hlive hm, proc_rcv cfg env s hlive hm]; rfl
    | REP => rw [proc_rep cfg _ s hlive hm, proc_rep cfg env s hlive hm]; rfl
    | FIX => rw [proc_fix cfg _ s hlive hm, proc_fix cfg env s hlive hm]; rfl
    | SLP => rw [proc_slp cfg _ s hlive hm, proc_slp cfg env s hlive hm]; rfl
  · intro hm
    rw [proc_trn cfg env s hlive hm]
    rfl

/-- Witness of the amended C11: a socket error in the RCV tick of the sample
server makes the tick return false. -/
theorem transport_failures_witness :
    (sampleState sampleServer e_mode.RCV).mode = e_mode.RCV ∧
    (proc sampleServer (sampleEnv 150 [SockEvent.except])
      (sampleState sampleServer e_mode.RCV)).ok = false :=
  ⟨rfl,
    (transport_failures sampleServer (sampleEnv 150 [SockEvent.except])
      (sampleState sampleServer e_mode.RCV) (by decide)).2.1 rfl SockEvent.except [] rfl
      (Or.inl rfl)⟩

end TimeSync
